import Mathlib

/-!
Shallow embedding of the job_processor_distributed_task_queue backend.

The Python source is embedded as follows:
* machine timestamps (`datetime.utcnow()`) become a `now : Nat` parameter of
  each operation that reads the clock;
* the `jobs` table becomes a `List Job`, the `dlq` table a `List DLQRow`;
  the `id` column is the primary key, so stores built by the system keep the
  ids of distinct rows distinct (stated as `IdsNodup` where a proof needs it);
* a SQL `UPDATE ... WHERE cond SET ...` becomes `sqlUpdate cond setter`;
* fallible Python code (raising exceptions) returns `Except`;
* opaque JSON payloads are modelled as `String`.
-/

/-- Job lifecycle states, from `app/core/domain/enums.py` (`JobStatus`). -/
inductive JobStatus where
  | pending
  | running
  | completed
  | failed
  | dlq
deriving DecidableEq, Repr

/-- A row of the `jobs` table / the `Job` domain entity
(`app/infrastructure/persistence/models/job_model.py`, `app/core/domain/job.py`). -/
structure Job where
  id : Nat
  tenant_id : String
  status : JobStatus
  payload : String
  idempotency_key : Option String
  max_retries : Nat
  retry_count : Nat
  created_at : Nat
  started_at : Option Nat
  completed_at : Option Nat
  error_message : Option String
  lease_expires_at : Option Nat
  trace_id : String
deriving DecidableEq, Repr

/-- A row of the `dlq` table (`DLQModel`).  The surrogate primary key (a fresh
UUID, never read by the code) is omitted. -/
structure DLQRow where
  original_job_id : Nat
  tenant_id : String
  payload : String
  error_message : Option String
  retry_count : Nat
  failed_at : Nat
  trace_id : String
deriving DecidableEq, Repr

/-- The persistent store: `jobs` and `dlq` tables. -/
structure Store where
  jobs : List Job
  dlq : List DLQRow
deriving DecidableEq, Repr

/-- The tenant record (`UserModel` / `User`), restricted to the fields the
submission path reads. -/
structure User where
  id : String
  max_concurrent_jobs : Nat
  rate_limit_per_minute : Nat
deriving DecidableEq, Repr

/-- Distinct rows of a job table have distinct primary keys (`id` is the
primary-key column, which the database enforces). -/
def IdsNodup (db : List Job) : Prop :=
  (db.map Job.id).Nodup

instance (db : List Job) : Decidable (IdsNodup db) := by
  unfold IdsNodup; infer_instance

/-- Embedding of a SQL `UPDATE jobs SET ... WHERE cond`: every row satisfying
`cond` is replaced by `g` applied to it. -/
def sqlUpdate (cond : Job → Bool) (g : Job → Job) (db : List Job) : List Job :=
  db.map fun j => if cond j then g j else j

/-- `JobRepository.get_by_id`: `SELECT * FROM jobs WHERE id = job_id`
(`scalar_one_or_none` over the primary key). -/
def get_by_id (job_id : Nat) (db : List Job) : Option Job :=
  db.find? fun j => j.id == job_id

/-- `JobRepository.get_by_idempotency_key`: selects by
`(tenant_id, idempotency_key)`; `scalar_one_or_none` raises
`MultipleResultsFound` when more than one row matches (there is no unique
constraint on that pair). -/
def get_by_idempotency_key (tenant_id key : String) (db : List Job) :
    Except String (Option Job) :=
  match db.filter fun j =>
      j.tenant_id == tenant_id && j.idempotency_key == some key with
  | [] => .ok none
  | [j] => .ok (some j)
  | _ => .error "MultipleResultsFound"

/-- `JobRepository.create`: builds a `JobModel` from the domain job, copying
only `id, tenant_id, status, payload, idempotency_key, max_retries,
retry_count, created_at, trace_id` (the execution fields default to NULL),
adds it to the session and commits.  No duplicate check of any kind. -/
def create (job : Job) (db : List Job) : List Job :=
  db ++ [{ job with
           started_at := none, completed_at := none
           error_message := none, lease_expires_at := none }]

/-- The per-row effect of `JobRepository.update_status`: always writes
`status`; writes `error_message` only when the Python argument is truthy
(`if error_message:` — both `None` and `""` are falsy); stamps `started_at`
for RUNNING and `completed_at` for COMPLETED/FAILED/DLQ. -/
def applyStatusUpdate (status : JobStatus) (em : Option String) (now : Nat)
    (j : Job) : Job :=
  let j1 := { j with status := status }
  let j2 := match em with
    | some m => if m = "" then j1 else { j1 with error_message := some m }
    | none => j1
  match status with
  | .running => { j2 with started_at := some now }
  | .completed => { j2 with completed_at := some now }
  | .failed => { j2 with completed_at := some now }
  | .dlq => { j2 with completed_at := some now }
  | .pending => j2

/-- The UPDATE statement of `JobRepository.update_status`
(`UPDATE jobs SET ... WHERE id = job_id`). -/
def update_status_db (job_id : Nat) (status : JobStatus) (em : Option String)
    (now : Nat) (db : List Job) : List Job :=
  sqlUpdate (fun j => j.id == job_id) (applyStatusUpdate status em now) db

/-- `JobRepository.update_status`: runs the UPDATE, commits, re-reads the row
and raises `JobNotFoundError` when it is absent. -/
def update_status (job_id : Nat) (status : JobStatus) (em : Option String)
    (now : Nat) (db : List Job) : Except String (Job × List Job) :=
  match get_by_id job_id (update_status_db job_id status em now db) with
  | some j => .ok (j, update_status_db job_id status em now db)
  | none => .error "JobNotFoundError"

/-- The lease-expiry test shared by `acquire_lease` and
`get_pending_jobs_for_dequeue`:
`lease_expires_at IS NULL OR lease_expires_at < now`. -/
def leaseFree (now : Nat) (j : Job) : Bool :=
  match j.lease_expires_at with
  | none => true
  | some t => t < now

/-- The dequeue predicate of `get_pending_jobs_for_dequeue`:
`status = PENDING AND (lease_expires_at IS NULL OR lease_expires_at < now)`. -/
def dequeueEligible (now : Nat) (j : Job) : Bool :=
  (j.status == JobStatus.pending) && leaseFree now j

/-- `JobRepository.acquire_lease`: conditional UPDATE guarded by
`id = job_id AND status = PENDING AND (lease IS NULL OR lease < now)`,
setting `status = RUNNING, lease_expires_at = now + ttl, started_at = now`;
returns `rowcount > 0`. -/
def acquire_lease (job_id ttl now : Nat) (db : List Job) : Bool × List Job :=
  let cond := fun j : Job => j.id == job_id && dequeueEligible now j
  (db.any cond,
   sqlUpdate cond
     (fun j => { j with
                 status := JobStatus.running
                 lease_expires_at := some (now + ttl)
                 started_at := some now }) db)

/-- The per-row effect of `JobRepository.increment_retry`. -/
def applyRetryBump (j : Job) : Job :=
  { j with
    retry_count := j.retry_count + 1, status := JobStatus.pending
    lease_expires_at := none, started_at := none, error_message := none }

/-- The UPDATE statement of `JobRepository.increment_retry`. -/
def increment_retry_db (job_id : Nat) (db : List Job) : List Job :=
  sqlUpdate (fun j => j.id == job_id) applyRetryBump db

/-- `JobRepository.increment_retry`: UPDATE, commit, re-read, raising
`JobNotFoundError` when absent. -/
def increment_retry (job_id : Nat) (db : List Job) :
    Except String (Job × List Job) :=
  match get_by_id job_id (increment_retry_db job_id db) with
  | some j => .ok (j, increment_retry_db job_id db)
  | none => .error "JobNotFoundError"

/-- Comparison used by `ORDER BY created_at ASC`. -/
def createdLE (a b : Job) : Prop :=
  a.created_at ≤ b.created_at

instance : DecidableRel createdLE :=
  fun a b => Nat.decLe a.created_at b.created_at

instance : IsTotal Job createdLE :=
  ⟨fun a b => Nat.le_total a.created_at b.created_at⟩

instance : IsTrans Job createdLE :=
  ⟨fun _ _ _ hab hbc => Nat.le_trans hab hbc⟩

/-- `JobRepository.get_pending_jobs_for_dequeue`: `SELECT ... WHERE status =
PENDING AND (lease IS NULL OR lease < now) ORDER BY created_at ASC LIMIT n`.
The `FOR UPDATE SKIP LOCKED` clause only affects concurrent transactions and
is invisible in this sequential embedding. -/
def get_pending_jobs_for_dequeue (limit now : Nat) (db : List Job) :
    List Job :=
  (List.insertionSort createdLE (db.filter (dequeueEligible now))).take limit

/-- `PostgreSQLQueueStrategy.dequeue`: `get_pending_jobs_for_dequeue(limit=1)`
and the first element, if any. -/
def dequeue (now : Nat) (st : Store) : Option Job :=
  (get_pending_jobs_for_dequeue 1 now st.jobs).head?

/-- `Worker.run_once`, up to the lease: dequeue one job and try to acquire a
lease on it; the dequeued job is handed to processing only when the lease was
acquired. -/
def dequeue_and_lease (ttl now : Nat) (st : Store) : Option Job × Store :=
  match dequeue now st with
  | none => (none, st)
  | some j =>
    let r := acquire_lease j.id ttl now st.jobs
    (if r.1 then some j else none, { st with jobs := r.2 })

/-- `JobRepository.count_by_status` specialised to RUNNING
(`JobRepository.count_running_jobs`). -/
def count_running_jobs (tenant_id : String) (db : List Job) : Nat :=
  (db.filter fun j =>
    j.status == JobStatus.running && j.tenant_id == tenant_id).length

/-- `JobRepository.release_lease`: `UPDATE jobs SET lease_expires_at = NULL
WHERE id = job_id`. -/
def release_lease_db (job_id : Nat) (db : List Job) : List Job :=
  sqlUpdate (fun j => j.id == job_id)
    (fun j => { j with lease_expires_at := none }) db

/-- `JobRepository.move_to_dlq`: appends a DLQ archive row built from the
passed job and the error message, then `update_status(job.id, DLQ,
error_message)` (which raises `JobNotFoundError` when the row is absent). -/
def move_to_dlq (job : Job) (em : String) (now : Nat) (st : Store) :
    Except String Store :=
  match update_status job.id .dlq (some em) now st.jobs with
  | .ok (_, db') => .ok
      { jobs := db'
        dlq := st.dlq ++ [{ original_job_id := job.id
                            tenant_id := job.tenant_id
                            payload := job.payload
                            error_message := some em
                            retry_count := job.retry_count
                            failed_at := now
                            trace_id := job.trace_id }] }
  | .error e => .error e

/-- `PostgreSQLQueueStrategy.ack`: `update_status(COMPLETED)` on success,
`update_status(FAILED, error_message)` on failure; a `JobNotFoundError` from
the repository is caught and ignored, so the operation is a pure store
transform. -/
def Queue.ack (job_id : Nat) (success : Bool) (em : Option String) (now : Nat)
    (st : Store) : Store :=
  if success then
    { st with jobs := update_status_db job_id .completed none now st.jobs }
  else
    { st with jobs := update_status_db job_id .failed em now st.jobs }

/-- Events published on `event_bus` by the worker
(`app/core/domain/enums.py`, `JobEvent`). -/
inductive JobEvent where
  | started
  | completed
  | failed
  | retry
  | dlq
deriving DecidableEq, Repr

/-- `Worker.process_job`: publishes `job_started`, invokes the processor on
the job's payload; on success marks the job COMPLETED and publishes
`job_completed`; on a processor exception (captured message `em`) it marks
the job FAILED with `em`, re-reads the row, bumps the retry when
`retry_count < max_retries` (publishing `job_retry`) and otherwise moves it
to the DLQ (publishing `job_dlq`), publishing `job_failed` in either case.
Repository exceptions raised inside the handler propagate to the caller
(`Except.error`).  The returned list is the publish order of the events. -/
def process_job (proc : String → Except String String) (job : Job)
    (now : Nat) (st : Store) : Except String (Store × List JobEvent) :=
  match proc job.payload with
  | .ok _ =>
    match update_status job.id .completed none now st.jobs with
    | .ok (_, db') => .ok ({ st with jobs := db' }, [.started, .completed])
    | .error e => .error e
  | .error em =>
    match update_status job.id .failed (some em) now st.jobs with
    | .error e => .error e
    | .ok (_, db1) =>
      match get_by_id job.id db1 with
      | some j' =>
        if j'.retry_count < j'.max_retries then
          match increment_retry job.id db1 with
          | .ok (_, db2) =>
            .ok ({ st with jobs := db2 }, [.started, .retry, .failed])
          | .error e => .error e
        else
          match move_to_dlq j' em now { st with jobs := db1 } with
          | .ok st2 => .ok (st2, [.started, .dlq, .failed])
          | .error e => .error e
      | none => .ok ({ st with jobs := db1 }, [.started, .failed])

/-- Errors surfaced by the submission path. -/
inductive SubmitError where
  | quotaExceeded
  | multipleResults
deriving DecidableEq, Repr

/-- `IdempotencyService.check_idempotency`: returns `none` when the key is
falsy (`None` or `""`), otherwise queries by `(tenant_id, key)`;
a `MultipleResultsFound` from the query propagates. -/
def check_idempotency (tenant_id : String) (key : Option String)
    (db : List Job) : Except SubmitError (Option Job) :=
  match key with
  | none => .ok none
  | some k =>
    if k = "" then .ok none
    else
      match get_by_idempotency_key tenant_id k db with
      | .ok r => .ok r
      | .error _ => .error .multipleResults

/-- `QuotaService.check_concurrent_jobs_limit`: raises `QuotaExceededError`
when `count_running_jobs(tenant) >= max_concurrent_jobs`. -/
def check_concurrent_jobs_limit (user : User) (db : List Job) :
    Except SubmitError Unit :=
  if user.max_concurrent_jobs ≤ count_running_jobs user.id db then
    .error .quotaExceeded
  else
    .ok ()

/-- `Job.__init__` as invoked by `submit_job`: a fresh PENDING job with
`retry_count = 0`, `created_at = now`, a fresh UUID `newId` and a fresh
`trace_id`, all execution fields NULL. -/
def freshJob (user : User) (payload : String)
    (idempotency_key : Option String) (max_retries newId : Nat)
    (newTrace : String) (now : Nat) : Job :=
  { id := newId
    tenant_id := user.id
    status := .pending
    payload := payload
    idempotency_key := idempotency_key
    max_retries := max_retries
    retry_count := 0
    created_at := now
    started_at := none
    completed_at := none
    error_message := none
    lease_expires_at := none
    trace_id := newTrace }

/-- `JobService.submit_job`: checks the concurrency quota FIRST, then the
idempotency short-circuit, then builds a fresh PENDING job (`Job.__init__`
with a fresh UUID `newId`, a fresh `trace_id`, `created_at = now`,
`retry_count = 0`) and enqueues it via `queue_strategy.enqueue`, which is
`JobRepository.create`.  Returns the (existing or new) job. -/
def submit_job (user : User) (payload : String)
    (idempotency_key : Option String) (max_retries : Nat)
    (newId : Nat) (newTrace : String) (now : Nat) (st : Store) :
    Except SubmitError (Job × Store) :=
  match check_concurrent_jobs_limit user st.jobs with
  | .error e => .error e
  | .ok _ =>
    match check_idempotency user.id idempotency_key st.jobs with
    | .error e => .error e
    | .ok (some existing) => .ok (existing, st)
    | .ok none =>
      .ok (freshJob user payload idempotency_key max_retries newId
             newTrace now,
           { st with jobs := create (freshJob user payload idempotency_key
               max_retries newId newTrace now) st.jobs })

/-- Token bucket state (`app/core/services/rate_limiter.py`, `TokenBucket`).
Python floats and `datetime` timestamps are modelled as rationals; tokens
start at `capacity` and `last_refill` at the creation time. -/
structure TokenBucket where
  capacity : ℚ
  refill_rate : ℚ
  tokens : ℚ
  last_refill : ℚ
deriving DecidableEq, Repr

/-- `TokenBucket.__init__(capacity, refill_rate)` at creation time `now`. -/
def TokenBucket.init (capacity refill_rate now : ℚ) : TokenBucket :=
  { capacity := capacity, refill_rate := refill_rate
    tokens := capacity, last_refill := now }

/-- `TokenBucket.refill`: adds `elapsed * refill_rate` tokens, capped at
`capacity`, and stamps `last_refill`. -/
def TokenBucket.refill (b : TokenBucket) (now : ℚ) : TokenBucket :=
  { b with
    tokens := min b.capacity (b.tokens + (now - b.last_refill) * b.refill_rate)
    last_refill := now }

/-- `TokenBucket.consume(tokens)`: refill, then deduct when at least `n`
tokens are available; returns whether the consumption succeeded together
with the mutated bucket (the refill persists even on failure). -/
def TokenBucket.consume (b : TokenBucket) (n : ℚ) (now : ℚ) :
    Bool × TokenBucket :=
  let b' := b.refill now
  if n ≤ b'.tokens then (true, { b' with tokens := b'.tokens - n })
  else (false, b')

/-- The in-memory bucket map of `RateLimiter` (a Python dict keyed by
`"rate_limit:" ++ tenant_id`, in insertion order). -/
structure RateLimiter where
  buckets : List (String × TokenBucket)
deriving DecidableEq, Repr

/-- `RateLimiter._get_bucket_key`. -/
def bucket_key (tenant_id : String) : String :=
  "rate_limit:" ++ tenant_id

/-- Lookup in the bucket dict. -/
def lookupBucket (key : String) (bs : List (String × TokenBucket)) :
    Option TokenBucket :=
  (bs.find? fun p => p.1 == key).map Prod.snd

/-- `RateLimiter._get_or_create_bucket`: returns the existing bucket for the
tenant, or inserts a fresh one with `capacity = rate_per_minute` and
`refill_rate = rate_per_minute / 60`. -/
def get_or_create_bucket (rl : RateLimiter) (tenant_id : String)
    (rate_per_minute : ℚ) (now : ℚ) : TokenBucket × RateLimiter :=
  let key := bucket_key tenant_id
  match lookupBucket key rl.buckets with
  | some b => (b, rl)
  | none =>
    let b := TokenBucket.init rate_per_minute (rate_per_minute / 60) now
    (b, { buckets := rl.buckets ++ [(key, b)] })

/-- Outcome of `RateLimiter.check_rate_limit`: `rateLimited` stands for the
raised `RateLimitExceededError`. -/
inductive RateCheck where
  | admitted
  | rateLimited
deriving DecidableEq, Repr

/-- `RateLimiter.check_rate_limit`: get-or-create the tenant's bucket, then
`bucket.consume()` (one token); raises `RateLimitExceededError` when the
consumption fails.  The bucket object is mutated in place in either case. -/
def check_rate_limit (rl : RateLimiter) (tenant_id : String)
    (rate_per_minute : ℚ) (now : ℚ) : RateCheck × RateLimiter :=
  let key := bucket_key tenant_id
  let r0 := get_or_create_bucket rl tenant_id rate_per_minute now
  let r1 := r0.1.consume 1 now
  let rl2 : RateLimiter :=
    { buckets := r0.2.buckets.map fun p => if p.1 == key then (p.1, r1.2) else p }
  (if r1.1 then .admitted else .rateLimited, rl2)

/-- An event-bus subscriber (`EventBus.subscribe` stores callables; a handler
may raise).  `hid` is the handler's identity, `run` its body; the payload is
the published event data.  Synchronous handlers and awaited coroutine
handlers are both plain invocations in this sequential embedding. -/
structure Handler where
  hid : Nat
  run : String → Except String Unit

/-- What `EventBus.publish` does to one handler: the invocation's exception,
if any, is caught and logged (`except Exception`), never rethrown. -/
inductive Delivery where
  | delivered (hid : Nat)
  | handlerError (hid : Nat) (msg : String)
deriving DecidableEq, Repr

/-- One iteration of the `publish` loop body. -/
def invokeHandler (h : Handler) (payload : String) : Delivery :=
  match h.run payload with
  | .ok _ => .delivered h.hid
  | .error e => .handlerError h.hid e

/-- The `for handler in self._subscribers[event_type]` loop of
`EventBus.publish`: each handler is invoked in order; a raising handler is
recorded and the loop continues.  The function is total: no handler
exception reaches the publishing caller. -/
def publishList (hs : List Handler) (payload : String) : List Delivery :=
  match hs with
  | [] => []
  | h :: rest => invokeHandler h payload :: publishList rest payload

/-- The event bus: topic name to subscriber list (`defaultdict(list)`). -/
structure EventBus where
  subscribers : List (String × List Handler)

/-- The current subscribers of a topic (`self._subscribers[event_type]`,
empty for an unknown topic). -/
def subscribersOf (bus : EventBus) (topic : String) : List Handler :=
  match bus.subscribers.find? fun p => p.1 == topic with
  | some p => p.2
  | none => []

/-- `EventBus.publish(event_type, data)`. -/
def publish (bus : EventBus) (topic : String) (payload : String) :
    List Delivery :=
  publishList (subscribersOf bus topic) payload

/-! Helper lemmas about the store embedding. -/

/-- Finding a row by id commutes with a conditional UPDATE whose setter
preserves the primary key. -/
theorem get_by_id_sqlUpdate (c : Job → Bool) (g : Job → Job)
    (hg : ∀ x, (g x).id = x.id) (i : Nat) (db : List Job) :
    get_by_id i (sqlUpdate c g db)
      = (get_by_id i db).map (fun j => if c j then g j else j) := by
  induction db with
  | nil => rfl
  | cons x xs ih =>
    have hid : ((if c x then g x else x).id == i) = (x.id == i) := by
      split
      · rw [hg]
      · rfl
    unfold get_by_id sqlUpdate at *
    cases hxa : (x.id == i) with
    | true => simp [List.find?_cons, hid, hxa]
    | false => simpa [List.find?_cons, hid, hxa] using ih

/-- Rows not selected by the UPDATE condition survive unchanged. -/
theorem mem_sqlUpdate_of_neg (c : Job → Bool) (g : Job → Job)
    {db : List Job} {k : Job} (hk : k ∈ db) (hck : c k = false) :
    k ∈ sqlUpdate c g db := by
  have h2 := List.mem_map_of_mem (fun j => if c j then g j else j) hk
  simp only [hck] at h2
  simpa [sqlUpdate] using h2

/-- A key-preserving UPDATE leaves the column of primary keys unchanged. -/
theorem ids_sqlUpdate (c : Job → Bool) (g : Job → Job)
    (hg : ∀ x, (g x).id = x.id) (db : List Job) :
    (sqlUpdate c g db).map Job.id = db.map Job.id := by
  unfold sqlUpdate
  rw [List.map_map]
  apply List.map_congr_left
  intro a _
  simp only [Function.comp_apply]
  split
  · exact hg a
  · rfl

/-- Two rows of a primary-key-respecting table with the same id coincide. -/
theorem mem_eq_of_idsNodup {db : List Job} (hnd : IdsNodup db)
    {a b : Job} (ha : a ∈ db) (hb : b ∈ db) (hab : a.id = b.id) : a = b :=
  List.inj_on_of_nodup_map hnd ha hb hab

/-- On a primary-key-respecting table, `get_by_id` at a member's id returns
that member. -/
theorem get_by_id_of_mem_nodup {db : List Job} (hnd : IdsNodup db)
    {j : Job} (hj : j ∈ db) : get_by_id j.id db = some j := by
  induction db with
  | nil => cases hj
  | cons x xs ih =>
    rcases List.mem_cons.mp hj with rfl | hj'
    · unfold get_by_id
      rw [List.find?_cons_of_pos _ (by simp)]
    · have hx : x.id ≠ j.id := by
        intro h
        have : x.id ∈ xs.map Job.id := h ▸ List.mem_map_of_mem Job.id hj'
        exact (List.nodup_cons.mp hnd).1 this
      unfold get_by_id
      rw [List.find?_cons_of_neg _ (by simp [hx])]
      exact ih (List.nodup_cons.mp hnd).2 hj'

/-- Members found by `get_by_id`. -/
theorem get_by_id_some {db : List Job} {i : Nat} {j : Job}
    (h : get_by_id i db = some j) : j ∈ db ∧ j.id = i := by
  refine ⟨List.mem_of_find?_eq_some h, ?_⟩
  have := List.find?_some h
  simpa using this

/-- The head of a one-element `take` is the head of the list. -/
theorem head?_take_one {α : Type} (l : List α) : (l.take 1).head? = l.head? := by
  cases l <;> rfl

/-- The dequeue query returns the head of the eligible rows sorted by age. -/
theorem dequeue_head (now : Nat) (st : Store) :
    dequeue now st
      = (List.insertionSort createdLE
          (st.jobs.filter (dequeueEligible now))).head? := by
  unfold dequeue get_pending_jobs_for_dequeue
  exact head?_take_one _

/-- A dequeued job is an eligible row of minimal `created_at`. -/
theorem dequeue_some_spec {now : Nat} {st : Store} {j : Job}
    (h : dequeue now st = some j) :
    j ∈ st.jobs ∧ dequeueEligible now j = true ∧
      ∀ k ∈ st.jobs, dequeueEligible now k = true →
        j.created_at ≤ k.created_at := by
  rw [dequeue_head] at h
  cases hLc : List.insertionSort createdLE
      (st.jobs.filter (dequeueEligible now)) with
  | nil => rw [hLc] at h; cases h
  | cons a rest =>
    rw [hLc] at h
    have haj : a = j := by simpa using h
    subst haj
    have hmemL : a ∈ List.insertionSort createdLE
        (st.jobs.filter (dequeueEligible now)) := by
      rw [hLc]; exact List.mem_cons_self a rest
    have hmemF := (List.mem_insertionSort createdLE).mp hmemL
    have hmem := List.mem_filter.mp hmemF
    refine ⟨hmem.1, hmem.2, ?_⟩
    intro k hk hke
    have hkF : k ∈ st.jobs.filter (dequeueEligible now) :=
      List.mem_filter.mpr ⟨hk, hke⟩
    have hkL := (List.mem_insertionSort createdLE).mpr hkF
    rw [hLc] at hkL
    rcases List.mem_cons.mp hkL with rfl | hkr
    · exact Nat.le_refl _
    · have hs := List.sorted_insertionSort createdLE
        (st.jobs.filter (dequeueEligible now))
      rw [hLc] at hs
      exact List.rel_of_sorted_cons hs k hkr

/-- The dequeue query returns null exactly when no row is eligible. -/
theorem dequeue_none_spec (now : Nat) (st : Store) :
    dequeue now st = none ↔
      ∀ k ∈ st.jobs, ¬ dequeueEligible now k = true := by
  rw [dequeue_head]
  constructor
  · intro h k hk hke
    have hL : List.insertionSort createdLE
        (st.jobs.filter (dequeueEligible now)) = [] := by
      cases hLc : List.insertionSort createdLE
          (st.jobs.filter (dequeueEligible now)) with
      | nil => rfl
      | cons a rest => rw [hLc] at h; cases h
    have hkL := (List.mem_insertionSort createdLE).mpr
      (List.mem_filter.mpr ⟨hk, hke⟩)
    rw [hL] at hkL
    cases hkL
  · intro h
    have hF : st.jobs.filter (dequeueEligible now) = [] :=
      List.filter_eq_nil_iff.mpr h
    rw [hF]
    rfl

/-- The conditional UPDATE of `acquire_lease` reports success exactly when
some row has the requested id and is PENDING with a free lease. -/
theorem acquire_lease_success_iff (job_id ttl now : Nat) (db : List Job) :
    (acquire_lease job_id ttl now db).1 = true ↔
      ∃ k ∈ db, k.id = job_id ∧ dequeueEligible now k = true := by
  simp [acquire_lease, List.any_eq_true, Bool.and_eq_true, beq_iff_eq,
    and_assoc]

/-- A failed lease acquisition leaves the table unchanged. -/
theorem acquire_lease_fail_frame (job_id ttl now : Nat) (db : List Job)
    (h : (acquire_lease job_id ttl now db).1 = false) :
    (acquire_lease job_id ttl now db).2 = db := by
  have h0 : db.any (fun j => j.id == job_id && dequeueEligible now j)
      = false := by
    simpa [acquire_lease] using h
  have hall := List.any_eq_false.mp h0
  show sqlUpdate _ _ db = db
  unfold sqlUpdate
  have hmap : db.map (fun j => if (j.id == job_id && dequeueEligible now j)
      then { j with
             status := JobStatus.running
             lease_expires_at := some (now + ttl)
             started_at := some now } else j) = db.map id := by
    apply List.map_congr_left
    intro a ha
    simp only [id]
    rw [if_neg (hall a ha)]
  simpa using hmap

/-- A successful lease acquisition upgrades exactly the requested row. -/
theorem acquire_lease_success_effect (job_id ttl now : Nat) (db : List Job)
    (j : Job) (hj : get_by_id job_id db = some j)
    (helig : dequeueEligible now j = true) :
    (acquire_lease job_id ttl now db).1 = true ∧
    get_by_id job_id (acquire_lease job_id ttl now db).2 =
      some { j with
             status := JobStatus.running
             lease_expires_at := some (now + ttl)
             started_at := some now } ∧
    ∀ k ∈ db, k.id ≠ job_id → k ∈ (acquire_lease job_id ttl now db).2 := by
  obtain ⟨hmem, hid⟩ := get_by_id_some hj
  refine ⟨?_, ?_, ?_⟩
  · exact (acquire_lease_success_iff job_id ttl now db).mpr
      ⟨j, hmem, hid, helig⟩
  · have hrw := get_by_id_sqlUpdate
      (fun k => k.id == job_id && dequeueEligible now k)
      (fun k => { k with
                  status := JobStatus.running
                  lease_expires_at := some (now + ttl)
                  started_at := some now })
      (fun x => rfl) job_id db
    show get_by_id job_id (sqlUpdate _ _ db) = _
    have hcond : (j.id == job_id && dequeueEligible now j) = true := by
      simp [hid, helig]
    rw [hrw, hj, Option.map_some', if_pos hcond]
  · intro k hk hkid
    show k ∈ sqlUpdate _ _ db
    exact mem_sqlUpdate_of_neg _ _ hk (by simp [hkid])

/-- Once a lease attempt on a job has succeeded, every subsequent lease
attempt on that job fails (the row is RUNNING, no longer PENDING). -/
theorem acquire_lease_at_most_once {job_id ttl now : Nat} {db db' : List Job}
    (hnd : IdsNodup db)
    (h : acquire_lease job_id ttl now db = (true, db')) :
    ∀ ttl2 now2, (acquire_lease job_id ttl2 now2 db').1 = false := by
  intro ttl2 now2
  have h1 : (acquire_lease job_id ttl now db).1 = true := by rw [h]
  obtain ⟨w, hw, hwid, hwe⟩ :=
    (acquire_lease_success_iff job_id ttl now db).mp h1
  have hdb' : db' = sqlUpdate
      (fun k => k.id == job_id && dequeueEligible now k)
      (fun k => { k with
                  status := JobStatus.running
                  lease_expires_at := some (now + ttl)
                  started_at := some now }) db := by
    have h2 := congrArg Prod.snd h
    simpa [acquire_lease] using h2.symm
  apply List.any_eq_false.mpr
  intro x hx
  rw [hdb'] at hx
  obtain ⟨y, hy, hxy⟩ := List.mem_map.mp hx
  by_cases hyid : y.id = job_id
  · have hyw : y = w := mem_eq_of_idsNodup hnd hy hw (by rw [hyid, hwid])
    have hcond : (y.id == job_id && dequeueEligible now y) = true := by
      simp [hyid, hyw, hwe, hwid]
    rw [if_pos hcond] at hxy
    intro hc
    rw [← hxy] at hc
    simp [dequeueEligible] at hc
  · have hcond : ¬ (y.id == job_id && dequeueEligible now y) = true := by
      simp [hyid]
    rw [if_neg hcond] at hxy
    intro hc
    rw [← hxy] at hc
    simp [hyid] at hc

/-- C1: the dequeue query selects the single oldest PENDING job whose lease
is null or expired (and returns null exactly when no job is eligible);
`acquire_lease` then upgrades exactly that job to RUNNING with
`started_at = now` and `lease_expires_at = now + ttl`.  A lease attempt
succeeds only while the job is PENDING with a null or expired lease, a
failed attempt leaves every row unchanged, and after a successful attempt
every later lease attempt on that job fails — so at most one of any two
lease attempts on a job succeeds while a lease is unexpired. -/
theorem c1_dequeue_and_lease_spec :
    (∀ now st j, dequeue now st = some j →
       j ∈ st.jobs ∧ dequeueEligible now j = true ∧
         ∀ k ∈ st.jobs, dequeueEligible now k = true →
           j.created_at ≤ k.created_at)
  ∧ (∀ now st, dequeue now st = none ↔
       ∀ k ∈ st.jobs, ¬ dequeueEligible now k = true)
  ∧ (∀ job_id ttl now db, (acquire_lease job_id ttl now db).1 = true ↔
       ∃ k ∈ db, k.id = job_id ∧ dequeueEligible now k = true)
  ∧ (∀ job_id ttl now db, (acquire_lease job_id ttl now db).1 = false →
       (acquire_lease job_id ttl now db).2 = db)
  ∧ (∀ ttl now st j, IdsNodup st.jobs → dequeue now st = some j →
       (dequeue_and_lease ttl now st).1 = some j ∧
       get_by_id j.id (dequeue_and_lease ttl now st).2.jobs =
         some { j with
                status := JobStatus.running
                lease_expires_at := some (now + ttl)
                started_at := some now } ∧
       ∀ k ∈ st.jobs, k.id ≠ j.id →
         k ∈ (dequeue_and_lease ttl now st).2.jobs)
  ∧ (∀ job_id ttl now db db', IdsNodup db →
       acquire_lease job_id ttl now db = (true, db') →
       ∀ ttl2 now2, (acquire_lease job_id ttl2 now2 db').1 = false) := by
  refine ⟨fun now st j h => dequeue_some_spec h,
          fun now st => dequeue_none_spec now st,
          fun job_id ttl now db => acquire_lease_success_iff job_id ttl now db,
          fun job_id ttl now db => acquire_lease_fail_frame job_id ttl now db,
          ?_,
          fun job_id ttl now db db' hnd h =>
            acquire_lease_at_most_once hnd h⟩
  intro ttl now st j hnd hdq
  obtain ⟨hmem, helig, _⟩ := dequeue_some_spec hdq
  have hget : get_by_id j.id st.jobs = some j :=
    get_by_id_of_mem_nodup hnd hmem
  obtain ⟨hsucc, heff, hframe⟩ :=
    acquire_lease_success_effect j.id ttl now st.jobs j hget helig
  simp only [dequeue_and_lease, hdq]
  refine ⟨by simp [hsucc], by simpa using heff, ?_⟩
  intro k hk hkid
  simpa using hframe k hk hkid

/-- Concrete three-row store exercising the dequeue-and-lease path. -/
def c1Job1 : Job :=
  { id := 1, tenant_id := "t", status := .pending, payload := "p1"
    idempotency_key := none, max_retries := 3, retry_count := 0
    created_at := 5, started_at := none, completed_at := none
    error_message := none, lease_expires_at := none, trace_id := "tr1" }

/-- A younger pending row whose lease is still held (not eligible at 10). -/
def c1Job2 : Job :=
  { id := 2, tenant_id := "t", status := .pending, payload := "p2"
    idempotency_key := none, max_retries := 3, retry_count := 0
    created_at := 3, started_at := none, completed_at := none
    error_message := none, lease_expires_at := some 50, trace_id := "tr2" }

/-- A younger eligible pending row than `c1Job1` by id, older by age. -/
def c1Job3 : Job :=
  { id := 3, tenant_id := "t", status := .pending, payload := "p3"
    idempotency_key := none, max_retries := 3, retry_count := 0
    created_at := 8, started_at := none, completed_at := none
    error_message := none, lease_expires_at := none, trace_id := "tr3" }

/-- The store holding the three rows above. -/
def c1Store : Store :=
  { jobs := [c1Job2, c1Job1, c1Job3], dlq := [] }

/-- Witness for C1 at a concrete store: the dequeue-and-lease path picks the
oldest eligible row (id 1, skipping the still-leased older row id 2) and
upgrades exactly it to RUNNING. -/
theorem c1_witness :
    IdsNodup c1Store.jobs ∧
    dequeue 10 c1Store = some c1Job1 ∧
    (dequeue_and_lease 30 10 c1Store).1 = some c1Job1 ∧
    get_by_id 1 (dequeue_and_lease 30 10 c1Store).2.jobs =
      some { c1Job1 with
             status := JobStatus.running
             lease_expires_at := some (10 + 30)
             started_at := some 10 } := by
  have h := c1_dequeue_and_lease_spec.2.2.2.2.1 30 10 c1Store c1Job1
    (by decide) (by decide)
  exact ⟨by decide, by decide, h.1, h.2.1⟩

deriving instance DecidableEq for Except

/-- A tenant with one RUNNING job, used to exercise the quota gate. -/
def c2Running : Job :=
  { id := 10, tenant_id := "t", status := .running, payload := "busy"
    idempotency_key := none, max_retries := 3, retry_count := 0
    created_at := 1, started_at := some 2, completed_at := none
    error_message := none, lease_expires_at := some 100, trace_id := "trA" }

/-- An existing COMPLETED job carrying idempotency key `k`. -/
def c2Existing : Job :=
  { id := 11, tenant_id := "t", status := .completed, payload := "orig"
    idempotency_key := some "k", max_retries := 3, retry_count := 0
    created_at := 1, started_at := some 2, completed_at := some 3
    error_message := none, lease_expires_at := none, trace_id := "trB" }

/-- Store with the two rows above. -/
def c2Store : Store :=
  { jobs := [c2Running, c2Existing], dlq := [] }

/-- A tenant whose concurrency quota (1) is already used up. -/
def c2User : User :=
  { id := "t", max_concurrent_jobs := 1, rate_limit_per_minute := 10 }

/-- Counterexample to C2: the tenant owns a job with idempotency key `k`,
but because `submit_job` checks the concurrency quota BEFORE the idempotency
short-circuit, a retried submission with the same key while the tenant is at
quota raises `QuotaExceededError` instead of returning the existing job. -/
theorem c2_counterexample :
    count_running_jobs c2User.id c2Store.jobs = 1 ∧
    check_idempotency c2User.id (some "k") c2Store.jobs =
      .ok (some c2Existing) ∧
    submit_job c2User "retry-payload" (some "k") 3 99 "trC" 20 c2Store =
      .error .quotaExceeded := by
  decide

/-- Inversion of a negative idempotency check: no row of the table carries
the tenant's key. -/
theorem check_idempotency_none_filter {t k : String} {db : List Job}
    (hk : ¬ k = "") (h : check_idempotency t (some k) db = .ok none) :
    db.filter (fun j => j.tenant_id == t && j.idempotency_key == some k)
      = [] := by
  simp only [check_idempotency] at h
  rw [if_neg hk] at h
  unfold get_by_idempotency_key at h
  cases hf : db.filter
      (fun j => j.tenant_id == t && j.idempotency_key == some k) with
  | nil => rfl
  | cons a l =>
    rw [hf] at h
    cases l with
    | nil => simp at h
    | cons b l2 => simp at h

/-- A create whose key had no prior row makes the idempotency check find
exactly the created row. -/
theorem check_idempotency_after_create {t k : String} {db : List Job}
    (job : Job) (hk : ¬ k = "")
    (hfilter : db.filter
      (fun j => j.tenant_id == t && j.idempotency_key == some k) = [])
    (htenant : job.tenant_id = t) (hkey : job.idempotency_key = some k)
    (h1 : job.started_at = none) (h2 : job.completed_at = none)
    (h3 : job.error_message = none) (h4 : job.lease_expires_at = none) :
    check_idempotency t (some k) (create job db) = .ok (some job) := by
  simp only [check_idempotency]
  rw [if_neg hk]
  unfold get_by_idempotency_key create
  rw [List.filter_append, hfilter]
  have hjob' : ({ job with
                  started_at := none, completed_at := none
                  error_message := none, lease_expires_at := none } : Job)
      = job := by
    cases job
    simp_all
  rw [hjob']
  have hpred : (job.tenant_id == t && job.idempotency_key == some k)
      = true := by
    simp [htenant, hkey]
  simp [hpred]

/-- C2 (amended): in `submit_job` the concurrency-quota check runs BEFORE
the idempotency short-circuit.  When the tenant is below its quota, a
submission whose (non-empty) idempotency key matches an existing job of the
tenant returns that job unchanged — regardless of its status — enqueues no
new work and discards the submitted payload; in particular a second submit
with the key of a previously created job returns that same job and leaves
the store untouched. -/
theorem c2_submit_quota_then_idempotency :
    (∀ (user : User) payload key maxr newId newTrace now st (j : Job),
       count_running_jobs user.id st.jobs < user.max_concurrent_jobs →
       check_idempotency user.id key st.jobs = .ok (some j) →
       submit_job user payload key maxr newId newTrace now st = .ok (j, st))
  ∧ (∀ (user : User) p p' k maxr maxr' id1 tr1 id2 tr2 now1 now2 st j st1,
       ¬ k = "" →
       check_idempotency user.id (some k) st.jobs = .ok none →
       submit_job user p (some k) maxr id1 tr1 now1 st = .ok (j, st1) →
       count_running_jobs user.id st1.jobs < user.max_concurrent_jobs →
       submit_job user p' (some k) maxr' id2 tr2 now2 st1 = .ok (j, st1)) := by
  constructor
  · intro user payload key maxr newId newTrace now st j hq hidem
    unfold submit_job
    have hqc : check_concurrent_jobs_limit user st.jobs = .ok () := by
      unfold check_concurrent_jobs_limit
      rw [if_neg (by omega)]
    rw [hqc, hidem]
  · intro user p p' k maxr maxr' id1 tr1 id2 tr2 now1 now2 st j st1
      hk hnone h1 hq
    have hfilter := check_idempotency_none_filter hk hnone
    unfold submit_job at h1
    cases hqc1 : check_concurrent_jobs_limit user st.jobs with
    | error e => rw [hqc1] at h1; simp at h1
    | ok u =>
      rw [hqc1, hnone] at h1
      simp only [Except.ok.injEq, Prod.mk.injEq] at h1
      obtain ⟨hj, hst⟩ := h1
      have hjt : j.tenant_id = user.id := by rw [← hj]; rfl
      have hjk : j.idempotency_key = some k := by rw [← hj]; rfl
      have hjs : j.started_at = none := by rw [← hj]; rfl
      have hjc : j.completed_at = none := by rw [← hj]; rfl
      have hje : j.error_message = none := by rw [← hj]; rfl
      have hjl : j.lease_expires_at = none := by rw [← hj]; rfl
      have hst1 : st1.jobs = create j st.jobs := by
        rw [← hst, ← hj]
      have hidem2 := check_idempotency_after_create j hk hfilter
        hjt hjk hjs hjc hje hjl
      unfold submit_job
      have hqc2 : check_concurrent_jobs_limit user st1.jobs = .ok () := by
        unfold check_concurrent_jobs_limit
        rw [if_neg (by omega)]
      rw [hqc2, hst1, hidem2]

/-- A tenant with spare quota, for the amended-C2 witness. -/
def c2UserOk : User :=
  { id := "t", max_concurrent_jobs := 5, rate_limit_per_minute := 10 }

/-- Witness for the amended C2: below quota, a submit with the existing key
returns the stored job and leaves the store unchanged. -/
theorem c2_witness :
    submit_job c2UserOk "second-payload" (some "k") 3 99 "trC" 20 c2Store =
      .ok (c2Existing, c2Store) :=
  c2_submit_quota_then_idempotency.1 c2UserOk "second-payload"
    (some "k") 3 99 "trC" 20 c2Store c2Existing (by decide) (by decide)

/-- Uniqueness of `(tenant_id, idempotency_key)` among rows with a non-null
key, as the spec claims it of the store. -/
def IdemKeyUnique (db : List Job) : Prop :=
  ∀ a ∈ db, ∀ b ∈ db,
    a.tenant_id = b.tenant_id → a.idempotency_key = b.idempotency_key →
    a.idempotency_key ≠ none → a = b

instance (db : List Job) : Decidable (IdemKeyUnique db) := by
  unfold IdemKeyUnique
  infer_instance

/-- First job carrying key `k` of tenant `t`. -/
def c3JobA : Job :=
  { id := 21, tenant_id := "t", status := .pending, payload := "pa"
    idempotency_key := some "k", max_retries := 3, retry_count := 0
    created_at := 1, started_at := none, completed_at := none
    error_message := none, lease_expires_at := none, trace_id := "ta" }

/-- Second job carrying the same `(tenant, key)` pair. -/
def c3JobB : Job :=
  { id := 22, tenant_id := "t", status := .pending, payload := "pb"
    idempotency_key := some "k", max_retries := 3, retry_count := 0
    created_at := 2, started_at := none, completed_at := none
    error_message := none, lease_expires_at := none, trace_id := "tb" }

/-- Counterexample to C3: inserting a second job with an already-present
`(tenant_id, idempotency_key)` pair does not fail — `create` has no
duplicate check and the schema index on the pair is non-unique — so the
store ends up with two rows sharing the key and the idempotency lookup now
raises `MultipleResultsFound`. -/
theorem c3_counterexample :
    (create c3JobB (create c3JobA [])).length = 2 ∧
    ¬ IdemKeyUnique (create c3JobB (create c3JobA [])) ∧
    get_by_idempotency_key "t" "k" (create c3JobB (create c3JobA [])) =
      .error "MultipleResultsFound" := by
  decide

/-- C3 (amended): `create` writes the row unconditionally and never fails,
even when another row of the same tenant already carries the same
idempotency key; afterwards both rows are present, so the store layer does
not enforce `(tenant_id, idempotency_key)` uniqueness.  Duplicate
suppression exists only as the pre-insert service-level check of
`submit_job`. -/
theorem c3_create_unconditional :
    ∀ (db : List Job) (job dup : Job), dup ∈ db →
      dup.tenant_id = job.tenant_id →
      dup.idempotency_key = job.idempotency_key →
      (create job db).length = db.length + 1 ∧
      dup ∈ create job db ∧
      ({ job with
         started_at := none, completed_at := none
         error_message := none, lease_expires_at := none } : Job)
        ∈ create job db := by
  intro db job dup hdup ht hk
  unfold create
  refine ⟨by simp, ?_, ?_⟩
  · exact List.mem_append_left _ hdup
  · exact List.mem_append_right _ (List.mem_singleton.mpr rfl)

/-- Witness for the amended C3 at the concrete duplicate pair. -/
theorem c3_witness :
    (create c3JobB (create c3JobA [])).length
        = (create c3JobA []).length + 1 ∧
    c3JobA ∈ create c3JobB (create c3JobA []) ∧
    ({ c3JobB with
       started_at := none, completed_at := none
       error_message := none, lease_expires_at := none } : Job)
      ∈ create c3JobB (create c3JobA []) :=
  c3_create_unconditional (create c3JobA []) c3JobB c3JobA
    (by decide) (by decide) (by decide)

/-- The status-update setter never touches the primary key. -/
theorem applyStatusUpdate_id (s : JobStatus) (em : Option String) (now : Nat)
    (x : Job) : (applyStatusUpdate s em now x).id = x.id := by
  unfold applyStatusUpdate
  cases em with
  | none => cases s <;> rfl
  | some m => by_cases hm : m = "" <;> cases s <;> simp [hm]

/-- Columns the status update never writes, and the status it always
writes. -/
theorem applyStatusUpdate_fields (s : JobStatus) (em : Option String)
    (now : Nat) (x : Job) :
    (applyStatusUpdate s em now x).tenant_id = x.tenant_id ∧
    (applyStatusUpdate s em now x).payload = x.payload ∧
    (applyStatusUpdate s em now x).idempotency_key = x.idempotency_key ∧
    (applyStatusUpdate s em now x).max_retries = x.max_retries ∧
    (applyStatusUpdate s em now x).retry_count = x.retry_count ∧
    (applyStatusUpdate s em now x).created_at = x.created_at ∧
    (applyStatusUpdate s em now x).trace_id = x.trace_id ∧
    (applyStatusUpdate s em now x).status = s := by
  unfold applyStatusUpdate
  cases em with
  | none => cases s <;> simp
  | some m => by_cases hm : m = "" <;> cases s <;> simp [hm]

/-- Re-updating a row with the same status and message overwrites the first
update completely. -/
theorem applyStatusUpdate_absorb (s : JobStatus) (em : Option String)
    (now1 now2 : Nat) (x : Job) :
    applyStatusUpdate s em now2 (applyStatusUpdate s em now1 x)
      = applyStatusUpdate s em now2 x := by
  unfold applyStatusUpdate
  cases em with
  | none => cases s <;> rfl
  | some m =>
    by_cases hm : m = ""
    · simp only [if_pos hm]
      cases s <;> rfl
    · simp only [if_neg hm]
      cases s <;> rfl

/-- A FAILED update with a non-empty message records the message. -/
theorem applyStatusUpdate_failed_ne (m : String) (now : Nat) (x : Job)
    (hm : ¬ m = "") :
    applyStatusUpdate .failed (some m) now x
      = { x with
          status := JobStatus.failed, error_message := some m
          completed_at := some now } := by
  unfold applyStatusUpdate
  simp [hm]

/-- Reading back the row touched by a status UPDATE. -/
theorem get_by_id_update_status_db {i : Nat} {s : JobStatus}
    {em : Option String} {now : Nat} {db : List Job} {j : Job}
    (hj : get_by_id i db = some j) :
    get_by_id i (update_status_db i s em now db)
      = some (applyStatusUpdate s em now j) := by
  obtain ⟨_, hid⟩ := get_by_id_some hj
  unfold update_status_db
  rw [get_by_id_sqlUpdate (fun x => x.id == i) (applyStatusUpdate s em now)
    (fun x => applyStatusUpdate_id s em now x) i db, hj]
  simp [hid]

/-- Reading back the row touched by a retry bump. -/
theorem get_by_id_increment_retry_db {i : Nat} {db : List Job} {j : Job}
    (hj : get_by_id i db = some j) :
    get_by_id i (increment_retry_db i db) = some (applyRetryBump j) := by
  obtain ⟨_, hid⟩ := get_by_id_some hj
  unfold increment_retry_db
  rw [get_by_id_sqlUpdate (fun x => x.id == i) applyRetryBump
    (fun x => rfl) i db, hj]
  simp [hid]

/-- `update_status` on a present row returns the updated row and table. -/
theorem update_status_ok {i : Nat} {s : JobStatus} {em : Option String}
    {now : Nat} {db : List Job} {j : Job} (hj : get_by_id i db = some j) :
    update_status i s em now db
      = .ok (applyStatusUpdate s em now j, update_status_db i s em now db) := by
  unfold update_status
  rw [get_by_id_update_status_db hj]

/-- `increment_retry` on a present row returns the bumped row and table. -/
theorem increment_retry_ok {i : Nat} {db : List Job} {j : Job}
    (hj : get_by_id i db = some j) :
    increment_retry i db = .ok (applyRetryBump j, increment_retry_db i db) := by
  unfold increment_retry
  rw [get_by_id_increment_retry_db hj]

/-- A FAILED row whose retry budget is spent, carrying a stale
`completed_at` stamp. -/
def c5Row : Job :=
  { id := 31, tenant_id := "t", status := .failed, payload := "p"
    idempotency_key := none, max_retries := 3, retry_count := 1
    created_at := 1, started_at := some 2, completed_at := some 5
    error_message := some "boom", lease_expires_at := some 9
    trace_id := "t5" }

/-- Counterexample to C5: `increment_retry` does NOT clear `completed_at` —
the bumped row keeps its old `completed_at = 5` instead of the claimed
NULL. -/
theorem c5_counterexample :
    get_by_id 31 (increment_retry_db 31 [c5Row])
      = some (applyRetryBump c5Row) ∧
    (applyRetryBump c5Row).completed_at = some 5 ∧
    ¬ (applyRetryBump c5Row).completed_at = none := by
  decide

/-- C5 (amended): `bump_retry` sets `retry_count + 1`, `status = PENDING`
and NULLs `lease_expires_at`, `started_at` and `error_message`; it does NOT
clear `completed_at` — that column, `created_at` and every remaining column
are left unchanged (so age ordering is stable), and rows with other ids are
untouched. -/
theorem c5_bump_retry_spec :
    ∀ (db : List Job) (i : Nat) (j : Job), get_by_id i db = some j →
      get_by_id i (increment_retry_db i db) = some (applyRetryBump j) ∧
      (applyRetryBump j).retry_count = j.retry_count + 1 ∧
      (applyRetryBump j).status = JobStatus.pending ∧
      (applyRetryBump j).lease_expires_at = none ∧
      (applyRetryBump j).started_at = none ∧
      (applyRetryBump j).error_message = none ∧
      (applyRetryBump j).completed_at = j.completed_at ∧
      (applyRetryBump j).created_at = j.created_at ∧
      (applyRetryBump j).id = j.id ∧
      (applyRetryBump j).tenant_id = j.tenant_id ∧
      (applyRetryBump j).payload = j.payload ∧
      (applyRetryBump j).idempotency_key = j.idempotency_key ∧
      (applyRetryBump j).max_retries = j.max_retries ∧
      (applyRetryBump j).trace_id = j.trace_id ∧
      ∀ k ∈ db, k.id ≠ i → k ∈ increment_retry_db i db := by
  intro db i j hj
  refine ⟨get_by_id_increment_retry_db hj, rfl, rfl, rfl, rfl, rfl, rfl,
    rfl, rfl, rfl, rfl, rfl, rfl, rfl, ?_⟩
  intro k hk hkid
  exact mem_sqlUpdate_of_neg _ _ hk (by simp [hkid])

/-- Witness for the amended C5: the bump at the concrete row increments the
retry count, resets the execution columns and keeps `completed_at` and
`created_at`. -/
theorem c5_witness :
    get_by_id 31 (increment_retry_db 31 [c5Row])
      = some (applyRetryBump c5Row) ∧
    (applyRetryBump c5Row).retry_count = c5Row.retry_count + 1 ∧
    (applyRetryBump c5Row).status = JobStatus.pending ∧
    (applyRetryBump c5Row).lease_expires_at = none ∧
    (applyRetryBump c5Row).started_at = none ∧
    (applyRetryBump c5Row).error_message = none ∧
    (applyRetryBump c5Row).completed_at = c5Row.completed_at ∧
    (applyRetryBump c5Row).created_at = c5Row.created_at := by
  have h := c5_bump_retry_spec [c5Row] 31 c5Row (by decide)
  exact ⟨h.1, h.2.1, h.2.2.1, h.2.2.2.1, h.2.2.2.2.1, h.2.2.2.2.2.1,
    h.2.2.2.2.2.2.1, h.2.2.2.2.2.2.2.1⟩

/-- Acknowledging a row twice with the same status and message is absorbed
by the second acknowledgement. -/
theorem update_status_db_absorb (i : Nat) (s : JobStatus)
    (em : Option String) (now1 now2 : Nat) (db : List Job) :
    update_status_db i s em now2 (update_status_db i s em now1 db)
      = update_status_db i s em now2 db := by
  unfold update_status_db sqlUpdate
  rw [List.map_map]
  apply List.map_congr_left
  intro a _
  simp only [Function.comp_apply]
  by_cases ha : (a.id == i) = true
  · have hb : ((applyStatusUpdate s em now1 a).id == i) = true := by
      rw [applyStatusUpdate_id]
      exact ha
    rw [if_pos ha, if_pos hb, if_pos ha]
    exact applyStatusUpdate_absorb s em now1 now2 a
  · rw [if_neg ha, if_neg ha]

/-- A RUNNING row with no recorded error, for the C7 counterexample. -/
def c7Row : Job :=
  { id := 41, tenant_id := "t", status := .running, payload := "p"
    idempotency_key := none, max_retries := 3, retry_count := 0
    created_at := 1, started_at := some 2, completed_at := none
    error_message := none, lease_expires_at := some 50, trace_id := "t7" }

/-- Store holding that single row. -/
def c7Store : Store :=
  { jobs := [c7Row], dlq := [] }

/-- Counterexample to C7: acknowledging a failure with the given (empty)
error message marks the row FAILED and stamps `completed_at`, but does NOT
record the given message — `update_status` only writes `error_message` when
the Python value is truthy, and `""` is falsy. -/
theorem c7_counterexample :
    get_by_id 41 (Queue.ack 41 false (some "") 9 c7Store).jobs
      = some { c7Row with
               status := JobStatus.failed, completed_at := some 9 } ∧
    ({ c7Row with
       status := JobStatus.failed
       completed_at := some 9 } : Job).error_message = none := by
  decide

/-- C7 (amended): acknowledge sets `status = COMPLETED` on success, or
`status = FAILED` on failure — recording the given error message when it is
non-empty (an empty or missing message leaves `error_message` unchanged) —
and sets `completed_at = now` in both cases.  It is idempotent: a repeated
acknowledgement with the same outcome and message leaves the store exactly
as a single acknowledgement (made at the later time) does. -/
theorem c7_ack_spec :
    (∀ (i now : Nat) (st : Store) (j : Job), get_by_id i st.jobs = some j →
       get_by_id i (Queue.ack i true none now st).jobs
         = some { j with
                  status := JobStatus.completed
                  completed_at := some now })
  ∧ (∀ (i : Nat) (em : String) (now : Nat) (st : Store) (j : Job),
       ¬ em = "" → get_by_id i st.jobs = some j →
       get_by_id i (Queue.ack i false (some em) now st).jobs
         = some { j with
                  status := JobStatus.failed
                  error_message := some em
                  completed_at := some now })
  ∧ (∀ (i : Nat) (success : Bool) (em : Option String) (now1 now2 : Nat)
       (st : Store),
       Queue.ack i success em now2 (Queue.ack i success em now1 st)
         = Queue.ack i success em now2 st) := by
  refine ⟨?_, ?_, ?_⟩
  · intro i now st j hj
    show get_by_id i (update_status_db i .completed none now st.jobs) = _
    rw [get_by_id_update_status_db hj]
    rfl
  · intro i em now st j hem hj
    show get_by_id i (update_status_db i .failed (some em) now st.jobs) = _
    rw [get_by_id_update_status_db hj, applyStatusUpdate_failed_ne em now j hem]
  · intro i success em now1 now2 st
    cases success with
    | false =>
      show ({ st with jobs := update_status_db i JobStatus.failed em now2 (update_status_db i JobStatus.failed em now1 st.jobs) } : Store) = _
      rw [update_status_db_absorb]
      rfl
    | true =>
      show ({ st with jobs := update_status_db i JobStatus.completed none now2 (update_status_db i JobStatus.completed none now1 st.jobs) } : Store) = _
      rw [update_status_db_absorb]
      rfl

/-- Witness for the amended C7 at the concrete row: a successful ack, a
failure ack with message `boom`, and the absorption of a repeated ack. -/
theorem c7_witness :
    get_by_id 41 (Queue.ack 41 true none 9 c7Store).jobs
      = some { c7Row with
               status := JobStatus.completed, completed_at := some 9 } ∧
    get_by_id 41 (Queue.ack 41 false (some "boom") 9 c7Store).jobs
      = some { c7Row with
               status := JobStatus.failed
               error_message := some "boom", completed_at := some 9 } ∧
    Queue.ack 41 false (some "boom") 12
        (Queue.ack 41 false (some "boom") 9 c7Store)
      = Queue.ack 41 false (some "boom") 12 c7Store := by
  refine ⟨c7_ack_spec.1 41 9 c7Store c7Row (by decide), ?_,
    c7_ack_spec.2.2 41 false (some "boom") 9 12 c7Store⟩
  exact c7_ack_spec.2.1 41 "boom" 9 c7Store c7Row (by decide) (by decide)

/-- A DLQ update with a non-empty message records the message. -/
theorem applyStatusUpdate_dlq_ne (m : String) (now : Nat) (x : Job)
    (hm : ¬ m = "") :
    applyStatusUpdate .dlq (some m) now x
      = { x with
          status := JobStatus.dlq, error_message := some m
          completed_at := some now } := by
  unfold applyStatusUpdate
  simp [hm]

/-- `move_to_dlq` on a present row archives it and marks it DLQ. -/
theorem move_to_dlq_ok (job : Job) (em : String) (now : Nat) (st : Store)
    (j : Job) (hj : get_by_id job.id st.jobs = some j) :
    move_to_dlq job em now st = .ok
      { jobs := update_status_db job.id .dlq (some em) now st.jobs
        dlq := st.dlq ++ [{ original_job_id := job.id
                            tenant_id := job.tenant_id
                            payload := job.payload
                            error_message := some em
                            retry_count := job.retry_count
                            failed_at := now
                            trace_id := job.trace_id }] } := by
  unfold move_to_dlq
  rw [update_status_ok hj]

/-- Shape of a row just marked FAILED with a non-empty message `em`
(abbreviates the record produced by `applyStatusUpdate_failed_ne`). -/
def markFailed (em : String) (now : Nat) (j : Job) : Job :=
  { j with
    status := JobStatus.failed, error_message := some em
    completed_at := some now }

/-- C4 (amended): after a processor exception with captured message `em`,
the worker first marks the job FAILED — recording `em` on the row when it is
non-empty — with `completed_at = now`, then re-reads the row; when
`retry_count < max_retries` the job returns to PENDING with `retry_count`
incremented (and `job_retry` then `job_failed` are published), otherwise an
archive row carrying the job's payload, error message, retry count and
trace id is appended to the DLQ, the job's status becomes DLQ (and
`job_dlq` then `job_failed` are published).  With `max_retries = 0` a
failing processor therefore reaches DLQ after exactly one attempt. -/
theorem c4_worker_failure_spec :
    ∀ (proc : String → Except String String) (job j : Job) (em : String)
      (now : Nat) (st st' : Store) (evs : List JobEvent),
      get_by_id job.id st.jobs = some j →
      proc job.payload = .error em → ¬ em = "" →
      process_job proc job now st = .ok (st', evs) →
      get_by_id job.id (update_status_db job.id .failed (some em) now st.jobs)
        = some { j with
                 status := JobStatus.failed, error_message := some em
                 completed_at := some now } ∧
      (j.retry_count < j.max_retries →
        evs = [.started, .retry, .failed] ∧ st'.dlq = st.dlq ∧
        get_by_id job.id st'.jobs
          = some { j with
                   status := JobStatus.pending
                   retry_count := j.retry_count + 1
                   started_at := none, lease_expires_at := none
                   error_message := none, completed_at := some now }) ∧
      (¬ j.retry_count < j.max_retries →
        evs = [.started, .dlq, .failed] ∧
        st'.dlq = st.dlq ++ [{ original_job_id := j.id
                               tenant_id := j.tenant_id
                               payload := j.payload
                               error_message := some em
                               retry_count := j.retry_count
                               failed_at := now
                               trace_id := j.trace_id }] ∧
        get_by_id job.id st'.jobs
          = some { j with
                   status := JobStatus.dlq, error_message := some em
                   completed_at := some now }) := by
  intro proc job j em now st st' evs hj hp hem hrun
  have hid : j.id = job.id := (get_by_id_some hj).2
  have hgf : get_by_id job.id
      (update_status_db job.id .failed (some em) now st.jobs)
      = some (markFailed em now j) := by
    rw [get_by_id_update_status_db hj,
      applyStatusUpdate_failed_ne em now j hem]
    rfl
  refine ⟨hgf, ?_, ?_⟩
  all_goals
    unfold process_job at hrun
    simp only [hp] at hrun
    simp only [update_status_ok hj] at hrun
    simp only [hgf] at hrun
  · intro hlt
    rw [if_pos (show (markFailed em now j).retry_count
      < (markFailed em now j).max_retries from hlt)] at hrun
    rw [increment_retry_ok hgf] at hrun
    simp only [Except.ok.injEq, Prod.mk.injEq] at hrun
    obtain ⟨hst, hevs⟩ := hrun
    refine ⟨hevs.symm, ?_, ?_⟩
    · rw [← hst]
    · rw [← hst]
      show get_by_id job.id
        (increment_retry_db job.id
          (update_status_db job.id .failed (some em) now st.jobs)) = _
      rw [get_by_id_increment_retry_db hgf]
      rfl
  · intro hge
    rw [if_neg (show ¬ (markFailed em now j).retry_count
      < (markFailed em now j).max_retries from hge)] at hrun
    have hjid : (markFailed em now j).id = job.id := hid
    have hgf2 : get_by_id (markFailed em now j).id
        (update_status_db job.id .failed (some em) now st.jobs)
        = some (markFailed em now j) := by
      rw [hjid]
      exact hgf
    rw [move_to_dlq_ok _ em now _ _ hgf2] at hrun
    simp only [Except.ok.injEq, Prod.mk.injEq] at hrun
    obtain ⟨hst, hevs⟩ := hrun
    refine ⟨hevs.symm, ?_, ?_⟩
    · rw [← hst]
      rfl
    · rw [← hst]
      show get_by_id job.id
        (update_status_db (markFailed em now j).id .dlq (some em) now
          (update_status_db job.id .failed (some em) now st.jobs)) = _
      nth_rewrite 1 [← hjid]
      rw [get_by_id_update_status_db hgf2,
        applyStatusUpdate_dlq_ne _ _ _ hem]
      rfl

/-- A RUNNING job with a spent retry budget whose processor will raise an
exception with an EMPTY message. -/
def c4RowE : Job :=
  { id := 42, tenant_id := "t", status := .running, payload := "p"
    idempotency_key := none, max_retries := 0, retry_count := 0
    created_at := 1, started_at := some 2, completed_at := none
    error_message := none, lease_expires_at := some 50, trace_id := "t4" }

/-- Store holding that row. -/
def c4StoreE : Store :=
  { jobs := [c4RowE], dlq := [] }

/-- Counterexample to C4: a processor exception whose captured message is
the empty string.  The worker runs the failure branch to DLQ, but the
"mark FAILED with the captured error message" step records nothing — the
row reaches DLQ with `error_message` still NULL, because `update_status`
skips falsy messages. -/
theorem c4_counterexample :
    process_job (fun _ => Except.error "") c4RowE 7 c4StoreE =
      .ok ({ jobs := [{ c4RowE with
                        status := JobStatus.dlq, completed_at := some 7 }]
             dlq := [{ original_job_id := 42, tenant_id := "t"
                       payload := "p", error_message := some ""
                       retry_count := 0, failed_at := 7
                       trace_id := "t4" }] },
           [.started, .dlq, .failed]) ∧
    ({ c4RowE with
       status := JobStatus.dlq
       completed_at := some 7 } : Job).error_message = none := by
  decide

/-- A RUNNING job with `max_retries = 0` and a processor that raises
`boom`. -/
def c4Row : Job :=
  { id := 43, tenant_id := "t", status := .running, payload := "p"
    idempotency_key := none, max_retries := 0, retry_count := 0
    created_at := 1, started_at := some 2, completed_at := none
    error_message := none, lease_expires_at := some 50, trace_id := "t4w" }

/-- Store holding that row. -/
def c4Store : Store :=
  { jobs := [c4Row], dlq := [] }

/-- The failing processor of the witness. -/
def c4Proc : String → Except String String :=
  fun _ => .error "boom"

/-- The store after the witness run: job in DLQ status, archive row
appended. -/
def c4Final : Store :=
  { jobs := [{ c4Row with
               status := JobStatus.dlq, error_message := some "boom"
               completed_at := some 7 }]
    dlq := [{ original_job_id := 43, tenant_id := "t", payload := "p"
              error_message := some "boom", retry_count := 0
              failed_at := 7, trace_id := "t4w" }] }

/-- Witness for the amended C4: with `max_retries = 0` a failing processor
sends the job to DLQ after a single attempt, archiving payload, error,
retry count and trace id. -/
theorem c4_witness :
    process_job c4Proc c4Row 7 c4Store = .ok (c4Final, [.started, .dlq, .failed]) ∧
    c4Final.dlq = c4Store.dlq ++ [{ original_job_id := c4Row.id
                                    tenant_id := c4Row.tenant_id
                                    payload := c4Row.payload
                                    error_message := some "boom"
                                    retry_count := c4Row.retry_count
                                    failed_at := 7
                                    trace_id := c4Row.trace_id }] ∧
    get_by_id c4Row.id c4Final.jobs
      = some { c4Row with
               status := JobStatus.dlq, error_message := some "boom"
               completed_at := some 7 } := by
  have h := c4_worker_failure_spec c4Proc c4Row c4Row "boom" 7 c4Store
    c4Final [.started, .dlq, .failed] (by decide) rfl (by decide) (by decide)
  exact ⟨by decide, (h.2.2 (by decide)).2.1, (h.2.2 (by decide)).2.2⟩

/-- Finding a row is unaffected by rows appended behind it. -/
theorem get_by_id_append {i : Nat} {db l2 : List Job} {j : Job}
    (h : get_by_id i db = some j) : get_by_id i (db ++ l2) = some j := by
  unfold get_by_id at *
  rw [List.find?_append, h]
  rfl

/-- A key-preserving UPDATE whose setter keeps `retry_count` and
`max_retries` preserves the retry invariant. -/
theorem jobsInv_sqlUpdate {c : Job → Bool} {g : Job → Job} {db : List Job}
    (hr : ∀ x, (g x).retry_count = x.retry_count)
    (hm : ∀ x, (g x).max_retries = x.max_retries)
    (hinv : ∀ j ∈ db, j.retry_count ≤ j.max_retries) :
    ∀ j ∈ sqlUpdate c g db, j.retry_count ≤ j.max_retries := by
  intro x hx
  obtain ⟨y, hy, hfy⟩ := List.mem_map.mp hx
  subst hfy
  by_cases hc : c y = true
  · rw [if_pos hc, hr, hm]
    exact hinv y hy
  · rw [if_neg hc]
    exact hinv y hy

/-- The retry bump preserves the retry invariant when the system only bumps
rows whose budget is not yet spent (the worker's `can_retry` guard). -/
theorem jobsInv_increment {i : Nat} {db : List Job} {j' : Job}
    (hnd : IdsNodup db) (hj' : get_by_id i db = some j')
    (hlt : j'.retry_count < j'.max_retries)
    (hinv : ∀ j ∈ db, j.retry_count ≤ j.max_retries) :
    ∀ j ∈ increment_retry_db i db, j.retry_count ≤ j.max_retries := by
  intro x hx
  obtain ⟨y, hy, hfy⟩ := List.mem_map.mp hx
  subst hfy
  by_cases hyc : (y.id == i) = true
  · rw [if_pos hyc]
    obtain ⟨hmem, hid⟩ := get_by_id_some hj'
    have hyj : y = j' :=
      mem_eq_of_idsNodup hnd hy hmem (by rw [hid]; simpa using hyc)
    subst hyj
    show y.retry_count + 1 ≤ y.max_retries
    omega
  · rw [if_neg hyc]
    exact hinv y hy

/-- A key-preserving UPDATE preserves primary-key uniqueness. -/
theorem idsNodup_sqlUpdate {c : Job → Bool} {g : Job → Job} {db : List Job}
    (hg : ∀ x, (g x).id = x.id) (hnd : IdsNodup db) :
    IdsNodup (sqlUpdate c g db) := by
  unfold IdsNodup
  rw [ids_sqlUpdate c g hg db]
  exact hnd

/-- Monotonicity of `retry_count` across one key-preserving UPDATE whose
setter never decreases it. -/
theorem get_by_id_sqlUpdate_mono {c : Job → Bool} {g : Job → Job} {i : Nat}
    {db : List Job} {j : Job} (hg : ∀ x, (g x).id = x.id)
    (hr : ∀ x, x.retry_count ≤ (g x).retry_count)
    (h : get_by_id i db = some j) :
    ∃ j', get_by_id i (sqlUpdate c g db) = some j' ∧
      j.retry_count ≤ j'.retry_count := by
  refine ⟨if c j then g j else j, ?_, ?_⟩
  · rw [get_by_id_sqlUpdate c g hg i db, h]
    rfl
  · split
    · exact hr j
    · exact Nat.le_refl _

/-- Outcomes of a successful `submit_job`: either the idempotency
short-circuit returned an existing job and the store is unchanged, or a
fresh PENDING job with `retry_count = 0` and id `newId` was appended. -/
theorem submit_job_ok_inv {user : User} {payload : String}
    {key : Option String} {maxr newId : Nat} {newTrace : String} {now : Nat}
    {st : Store} {j : Job} {st' : Store}
    (h : submit_job user payload key maxr newId newTrace now st
      = .ok (j, st')) :
    st' = st ∨
    st' = { st with jobs := create (freshJob user payload key maxr newId newTrace now) st.jobs } := by
  unfold submit_job at h
  cases hq : check_concurrent_jobs_limit user st.jobs with
  | error e =>
    rw [hq] at h
    simp at h
  | ok u =>
    rw [hq] at h
    cases hi : check_idempotency user.id key st.jobs with
    | error e =>
      rw [hi] at h
      simp at h
    | ok r =>
      rw [hi] at h
      cases r with
      | some ex =>
        left
        simp only [Except.ok.injEq, Prod.mk.injEq] at h
        exact h.2.symm
      | none =>
        right
        simp only [Except.ok.injEq, Prod.mk.injEq] at h
        exact h.2.symm

/-- Outcomes of a successful `process_job` run on the stores: either the job
was completed, or the failure branch retried it (only under the `can_retry`
guard) or moved it to the DLQ. -/
theorem process_job_ok_inv {proc : String → Except String String} {job : Job}
    {now : Nat} {st st' : Store} {evs : List JobEvent}
    (h : process_job proc job now st = .ok (st', evs)) :
    (st' = { st with jobs := update_status_db job.id .completed none now st.jobs })
  ∨ (∃ em j',
      get_by_id job.id (update_status_db job.id .failed (some em) now st.jobs) = some j' ∧
      ((j'.retry_count < j'.max_retries ∧
        st' = { st with jobs := increment_retry_db job.id (update_status_db job.id .failed (some em) now st.jobs) })
       ∨ (¬ j'.retry_count < j'.max_retries ∧
        st'.jobs = update_status_db j'.id .dlq (some em) now (update_status_db job.id .failed (some em) now st.jobs) ∧
        st'.dlq = st.dlq ++ [{ original_job_id := j'.id, tenant_id := j'.tenant_id, payload := j'.payload, error_message := some em, retry_count := j'.retry_count, failed_at := now, trace_id := j'.trace_id }]))) := by
  unfold process_job at h
  cases hp : proc job.payload with
  | ok r =>
    simp only [hp] at h
    unfold update_status at h
    cases hg : get_by_id job.id
        (update_status_db job.id .completed none now st.jobs) with
    | none =>
      simp only [hg] at h
      simp at h
    | some jc =>
      simp only [hg] at h
      simp only [Except.ok.injEq, Prod.mk.injEq] at h
      left
      exact h.1.symm
  | error em =>
    simp only [hp] at h
    unfold update_status at h
    cases hg : get_by_id job.id
        (update_status_db job.id .failed (some em) now st.jobs) with
    | none =>
      simp only [hg] at h
      simp at h
    | some j' =>
      simp only [hg] at h
      right
      refine ⟨em, j', hg, ?_⟩
      by_cases hr : j'.retry_count < j'.max_retries
      · rw [if_pos hr] at h
        unfold increment_retry at h
        cases hg2 : get_by_id job.id (increment_retry_db job.id
            (update_status_db job.id .failed (some em) now st.jobs)) with
        | none =>
          simp only [hg2] at h
          simp at h
        | some jb =>
          simp only [hg2] at h
          simp only [Except.ok.injEq, Prod.mk.injEq] at h
          exact Or.inl ⟨hr, h.1.symm⟩
      · rw [if_neg hr] at h
        unfold move_to_dlq update_status at h
        cases hg3 : get_by_id j'.id (update_status_db j'.id .dlq (some em)
            now (update_status_db job.id .failed (some em) now st.jobs)) with
        | none =>
          simp only [hg3] at h
          simp at h
        | some jd =>
          simp only [hg3] at h
          simp only [Except.ok.injEq, Prod.mk.injEq] at h
          refine Or.inr ⟨hr, ?_, ?_⟩
          · rw [← h.1]
          · rw [← h.1]

/-- One transition of the queue-and-worker system: a submission
(`JobService.submit_job`, with a fresh UUID), a lease attempt
(`JobRepository.acquire_lease`), an acknowledgement
(`PostgreSQLQueueStrategy.ack`), or one worker processing pass
(`Worker.process_job`, whose failure branch performs the guarded
retry-bump or the move to the DLQ). -/
inductive Step : Store → Store → Prop where
  | submit {st st' : Store} (user : User) (payload : String)
      (key : Option String) (maxr newId : Nat) (trace : String) (now : Nat)
      (j : Job) :
      get_by_id newId st.jobs = none →
      submit_job user payload key maxr newId trace now st = .ok (j, st') →
      Step st st'
  | lease {st : Store} (job_id ttl now : Nat) :
      Step st { st with jobs := (acquire_lease job_id ttl now st.jobs).2 }
  | ackStep {st : Store} (job_id : Nat) (success : Bool)
      (em : Option String) (now : Nat) :
      Step st (Queue.ack job_id success em now st)
  | process {st st' : Store} (proc : String → Except String String)
      (job : Job) (now : Nat) (evs : List JobEvent) :
      process_job proc job now st = .ok (st', evs) →
      Step st st'

/-- Stores reachable from the empty store by the system's operations. -/
def Reachable (st : Store) : Prop :=
  Relation.ReflTransGen Step { jobs := [], dlq := [] } st

/-- The inductive invariant: primary keys unique, retry budget respected. -/
def StoreInv (st : Store) : Prop :=
  IdsNodup st.jobs ∧ ∀ j ∈ st.jobs, j.retry_count ≤ j.max_retries

/-- Every operation preserves the store invariant. -/
theorem step_preserves_inv {st st' : Store} (h : Step st st')
    (hinv : StoreInv st) : StoreInv st' := by
  obtain ⟨hnd, hret⟩ := hinv
  cases h with
  | submit user payload key maxr newId trace now j hfresh hsub =>
    rcases submit_job_ok_inv hsub with rfl | rfl
    · exact ⟨hnd, hret⟩
    · have hids : ∀ x ∈ st.jobs, x.id ≠ newId := by
        intro x hx hxe
        have := List.find?_eq_none.mp hfresh x hx
        simp [hxe] at this
      constructor
      · show IdsNodup (st.jobs ++ [_])
        unfold IdsNodup
        rw [List.map_append, List.nodup_append]
        refine ⟨hnd, by simp, ?_⟩
        intro a ha hb
        obtain ⟨x, hx, rfl⟩ := List.mem_map.mp ha
        have hb' : x.id = newId := by
          simpa [freshJob] using hb
        exact hids x hx hb'
      · intro x hx
        rcases List.mem_append.mp hx with hx1 | hx2
        · exact hret x hx1
        · rcases List.mem_singleton.mp hx2 with rfl
          exact Nat.zero_le _
  | lease job_id ttl now =>
    constructor
    · show IdsNodup (sqlUpdate _ _ st.jobs)
      exact idsNodup_sqlUpdate (fun x => rfl) hnd
    · show ∀ x ∈ sqlUpdate _ _ st.jobs, _
      exact jobsInv_sqlUpdate (fun x => rfl) (fun x => rfl) hret
  | ackStep job_id success em now =>
    cases success with
    | true =>
      refine ⟨idsNodup_sqlUpdate (fun x => applyStatusUpdate_id _ _ _ x) hnd,
        jobsInv_sqlUpdate
          (fun x => (applyStatusUpdate_fields _ _ _ x).2.2.2.2.1)
          (fun x => (applyStatusUpdate_fields _ _ _ x).2.2.2.1) hret⟩
    | false =>
      refine ⟨idsNodup_sqlUpdate (fun x => applyStatusUpdate_id _ _ _ x) hnd,
        jobsInv_sqlUpdate
          (fun x => (applyStatusUpdate_fields _ _ _ x).2.2.2.2.1)
          (fun x => (applyStatusUpdate_fields _ _ _ x).2.2.2.1) hret⟩
  | process proc job now evs hp =>
    rcases process_job_ok_inv hp with rfl | ⟨em, j', hgj, hcase⟩
    · refine ⟨idsNodup_sqlUpdate (fun x => applyStatusUpdate_id _ _ _ x) hnd,
        jobsInv_sqlUpdate
          (fun x => (applyStatusUpdate_fields _ _ _ x).2.2.2.2.1)
          (fun x => (applyStatusUpdate_fields _ _ _ x).2.2.2.1) hret⟩
    · have hnd1 : IdsNodup (update_status_db job.id .failed (some em)
          now st.jobs) :=
        idsNodup_sqlUpdate (fun x => applyStatusUpdate_id _ _ _ x) hnd
      have hret1 : ∀ x ∈ update_status_db job.id .failed (some em)
          now st.jobs, x.retry_count ≤ x.max_retries :=
        jobsInv_sqlUpdate
          (fun x => (applyStatusUpdate_fields _ _ _ x).2.2.2.2.1)
          (fun x => (applyStatusUpdate_fields _ _ _ x).2.2.2.1) hret
      rcases hcase with ⟨hlt, rfl⟩ | ⟨hge, hjobs, hdlq⟩
      · exact ⟨idsNodup_sqlUpdate (fun x => rfl) hnd1,
          jobsInv_increment hnd1 hgj hlt hret1⟩
      · constructor
        · show IdsNodup _
          rw [hjobs]
          exact idsNodup_sqlUpdate
            (fun x => applyStatusUpdate_id _ _ _ x) hnd1
        · intro x hx
          rw [hjobs] at hx
          exact jobsInv_sqlUpdate
            (fun y => (applyStatusUpdate_fields _ _ _ y).2.2.2.2.1)
            (fun y => (applyStatusUpdate_fields _ _ _ y).2.2.2.1)
            hret1 x hx

/-- No operation ever decreases a job's `retry_count`. -/
theorem step_mono {st st' : Store} (h : Step st st') {i : Nat} {j : Job}
    (hj : get_by_id i st.jobs = some j) :
    ∃ j', get_by_id i st'.jobs = some j' ∧
      j.retry_count ≤ j'.retry_count := by
  cases h with
  | submit user payload key maxr newId trace now j0 hfresh hsub =>
    rcases submit_job_ok_inv hsub with rfl | rfl
    · exact ⟨j, hj, Nat.le_refl _⟩
    · refine ⟨j, ?_, Nat.le_refl _⟩
      show get_by_id i (st.jobs ++ [_]) = some j
      exact get_by_id_append hj
  | lease job_id ttl now =>
    show ∃ j', get_by_id i (sqlUpdate _ _ st.jobs) = some j' ∧ _
    exact get_by_id_sqlUpdate_mono (fun x => rfl)
      (fun x => Nat.le_refl _) hj
  | ackStep job_id success em now =>
    cases success with
    | true =>
      exact get_by_id_sqlUpdate_mono
        (fun x => applyStatusUpdate_id _ _ _ x)
        (fun x => Nat.le_of_eq
          ((applyStatusUpdate_fields _ _ _ x).2.2.2.2.1).symm) hj
    | false =>
      exact get_by_id_sqlUpdate_mono
        (fun x => applyStatusUpdate_id _ _ _ x)
        (fun x => Nat.le_of_eq
          ((applyStatusUpdate_fields _ _ _ x).2.2.2.2.1).symm) hj
  | process proc job now evs hp =>
    rcases process_job_ok_inv hp with rfl | ⟨em, j', hgj, hcase⟩
    · exact get_by_id_sqlUpdate_mono
        (fun x => applyStatusUpdate_id _ _ _ x)
        (fun x => Nat.le_of_eq
          ((applyStatusUpdate_fields _ _ _ x).2.2.2.2.1).symm) hj
    · obtain ⟨j1, hj1, hle1⟩ := get_by_id_sqlUpdate_mono
        (c := fun x => x.id == job.id)
        (fun x => applyStatusUpdate_id JobStatus.failed (some em) now x)
        (fun x => Nat.le_of_eq
          ((applyStatusUpdate_fields _ _ _ x).2.2.2.2.1).symm) hj
      rcases hcase with ⟨hlt, rfl⟩ | ⟨hge, hjobs, hdlq⟩
      · obtain ⟨j2, hj2, hle2⟩ := get_by_id_sqlUpdate_mono
          (c := fun x => x.id == job.id) (g := applyRetryBump)
          (fun x => rfl) (fun x => Nat.le_succ _) hj1
        exact ⟨j2, hj2, Nat.le_trans hle1 hle2⟩
      · obtain ⟨j2, hj2, hle2⟩ := get_by_id_sqlUpdate_mono
          (c := fun x => x.id == j'.id)
          (fun x => applyStatusUpdate_id JobStatus.dlq (some em) now x)
          (fun x => Nat.le_of_eq
            ((applyStatusUpdate_fields _ _ _ x).2.2.2.2.1).symm) hj1
        refine ⟨j2, ?_, Nat.le_trans hle1 hle2⟩
        rw [hjobs]
        exact hj2

/-- C6: in every store reachable from the empty store by the system's
operations (submit, lease, acknowledge, and the worker pass that performs
the guarded retry-bump and move-to-DLQ), every job satisfies
`retry_count ≤ max_retries`; and along any sequence of operations a job's
`retry_count` never decreases. -/
theorem c6_retry_invariant :
    (∀ st, Reachable st → ∀ j ∈ st.jobs, j.retry_count ≤ j.max_retries)
  ∧ (∀ st st', Relation.ReflTransGen Step st st' →
      ∀ (i : Nat) (j j' : Job),
        get_by_id i st.jobs = some j → get_by_id i st'.jobs = some j' →
        j.retry_count ≤ j'.retry_count) := by
  have hinv : ∀ st, Reachable st → StoreInv st := by
    intro st h
    induction h with
    | refl =>
      exact ⟨by simp [IdsNodup], by intro j hj; cases hj⟩
    | tail hab hbc ih =>
      exact step_preserves_inv hbc ih
  have hmono : ∀ st st', Relation.ReflTransGen Step st st' →
      ∀ (i : Nat) (j : Job), get_by_id i st.jobs = some j →
      ∃ j', get_by_id i st'.jobs = some j' ∧
        j.retry_count ≤ j'.retry_count := by
    intro st st' h
    induction h with
    | refl =>
      intro i j hj
      exact ⟨j, hj, Nat.le_refl _⟩
    | tail hab hbc ih =>
      intro i j hj
      obtain ⟨j1, hj1, hle1⟩ := ih i j hj
      obtain ⟨j2, hj2, hle2⟩ := step_mono hbc hj1
      exact ⟨j2, hj2, Nat.le_trans hle1 hle2⟩
  constructor
  · intro st h
    exact (hinv st h).2
  · intro st st' h i j j' hj hj'
    obtain ⟨j2, hj2, hle⟩ := hmono st st' h i j hj
    have hj2' : j2 = j' := by
      rw [hj'] at hj2
      exact (Option.some.inj hj2).symm
    rw [← hj2']
    exact hle

/-- The tenant used by the C6 witness. -/
def c6User : User :=
  { id := "t", max_concurrent_jobs := 5, rate_limit_per_minute := 10 }

/-- The job created by the witness submission. -/
def c6Job : Job :=
  freshJob c6User "p" none 2 50 "t6" 3

/-- Store after that submission. -/
def c6St1 : Store :=
  { jobs := [c6Job], dlq := [] }

/-- The same job once leased. -/
def c6JobLeased : Job :=
  { c6Job with
    status := JobStatus.running, lease_expires_at := some 40
    started_at := some 10 }

/-- Store after leasing it. -/
def c6St2 : Store :=
  { jobs := [c6JobLeased], dlq := [] }

/-- One submit step from the empty store. -/
theorem c6_step1 : Step { jobs := [], dlq := [] } c6St1 :=
  Step.submit c6User "p" none 2 50 "t6" 3 c6Job (by decide) (by decide)

/-- One lease step from the submitted store. -/
theorem c6_step2 : Step c6St1 c6St2 :=
  Step.lease 50 30 10

/-- Witness for C6 at a concrete two-step run: the freshly submitted job
respects its retry budget, and leasing never lowers its retry count. -/
theorem c6_witness :
    c6Job.retry_count ≤ c6Job.max_retries ∧
    c6Job.retry_count ≤ c6JobLeased.retry_count := by
  constructor
  · exact c6_retry_invariant.1 c6St1
      (Relation.ReflTransGen.single c6_step1) c6Job (by decide)
  · exact c6_retry_invariant.2 c6St1 c6St2
      (Relation.ReflTransGen.single c6_step2) 50 c6Job c6JobLeased
      (by decide) (by decide)

/-- Variant of `List.find?_cons_of_pos` with the predicate explicit. -/
theorem find?_cons_pos {α : Type} (p : α → Bool) (a : α) (l : List α)
    (h : p a = true) : List.find? p (a :: l) = some a :=
  List.find?_cons_of_pos l h

/-- Variant of `List.find?_cons_of_neg` with the predicate explicit. -/
theorem find?_cons_neg {α : Type} (p : α → Bool) (a : α) (l : List α)
    (h : ¬ p a = true) : List.find? p (a :: l) = List.find? p l :=
  List.find?_cons_of_neg l h

/-- `consume` never changes a bucket's capacity or refill rate. -/
theorem consume_fields (b : TokenBucket) (n now : ℚ) :
    (b.consume n now).2.capacity = b.capacity ∧
    (b.consume n now).2.refill_rate = b.refill_rate := by
  simp only [TokenBucket.consume, TokenBucket.refill]
  constructor
  · split
    · rfl
    · rfl
  · split
    · rfl
    · rfl

/-- In-place mutation of the dict entry for `key` commutes with lookup. -/
theorem lookupBucket_replace {key : String} {b' : TokenBucket}
    (bs : List (String × TokenBucket)) :
    lookupBucket key (bs.map fun p => if p.1 == key then (p.1, b') else p)
      = (lookupBucket key bs).map (fun _ => b') := by
  induction bs with
  | nil => rfl
  | cons x xs ih =>
    unfold lookupBucket at *
    cases hx : (x.1 == key) with
    | true =>
      rw [List.map_cons,
        show (if (x.1 == key) = true then (x.1, b') else x) = (x.1, b')
          from if_pos hx]
      rw [find?_cons_pos (fun p => p.1 == key) (x.1, b') _ hx]
      rw [find?_cons_pos (fun p => p.1 == key) x xs hx]
      rfl
    | false =>
      rw [List.map_cons,
        show (if (x.1 == key) = true then (x.1, b') else x) = x
          from if_neg (by simp [hx])]
      rw [find?_cons_neg (fun p => p.1 == key) x _ (by simp [hx])]
      rw [find?_cons_neg (fun p => p.1 == key) x xs (by simp [hx])]
      exact ih

/-- Lookup skips a prefix that does not hold the key. -/
theorem lookupBucket_append {key : String}
    {bs1 bs2 : List (String × TokenBucket)}
    (h : lookupBucket key bs1 = none) :
    lookupBucket key (bs1 ++ bs2) = lookupBucket key bs2 := by
  unfold lookupBucket at *
  have hf : (bs1.find? fun p => p.1 == key) = none := by
    cases hc : bs1.find? fun p => p.1 == key with
    | none => rfl
    | some p =>
      rw [hc] at h
      simp at h
  rw [List.find?_append, hf]
  rfl

/-- The entries of a keyless prefix are untouched by the in-place
mutation. -/
theorem map_replace_of_none {key : String} {b' : TokenBucket}
    {bs1 : List (String × TokenBucket)}
    (h : lookupBucket key bs1 = none) :
    (bs1.map fun p => if p.1 == key then (p.1, b') else p) = bs1 := by
  have hf : (bs1.find? fun p => p.1 == key) = none := by
    cases hc : bs1.find? fun p => p.1 == key with
    | none => rfl
    | some p =>
      unfold lookupBucket at h
      rw [hc] at h
      simp at h
  have hall := List.find?_eq_none.mp hf
  have : bs1.map (fun p => if p.1 == key then (p.1, b') else p)
      = bs1.map id := by
    apply List.map_congr_left
    intro a ha
    simp only [id]
    rw [if_neg (hall a ha)]
  simpa using this

/-- C8: a token bucket admission refills the balance to
`min(capacity, tokens + elapsed * refill_rate)` and then deducts one token,
failing (RATE_LIMITED) exactly when the refilled balance is below one
token; the bucket for a tenant is created with capacity
`rate_limit_per_minute` and refill rate `rate_limit_per_minute / 60` per
second, so with a rate limit of one per minute a second admission strictly
less than sixty seconds after the first fails with RATE_LIMITED. -/
theorem c8_rate_limit_spec :
    (∀ (b : TokenBucket) (now : ℚ),
       ((b.consume 1 now).1 = true ↔
         1 ≤ min b.capacity
           (b.tokens + (now - b.last_refill) * b.refill_rate)) ∧
       (b.consume 1 now).2.tokens =
         (if 1 ≤ min b.capacity
              (b.tokens + (now - b.last_refill) * b.refill_rate)
          then min b.capacity
              (b.tokens + (now - b.last_refill) * b.refill_rate) - 1
          else min b.capacity
              (b.tokens + (now - b.last_refill) * b.refill_rate)))
  ∧ (∀ (rl : RateLimiter) (t : String) (r now : ℚ) (b : TokenBucket),
       lookupBucket (bucket_key t) rl.buckets = some b →
       ((check_rate_limit rl t r now).1 = RateCheck.rateLimited ↔
         min b.capacity (b.tokens + (now - b.last_refill) * b.refill_rate)
           < 1))
  ∧ (∀ (rl : RateLimiter) (t : String) (t1 t2 : ℚ),
       lookupBucket (bucket_key t) rl.buckets = none →
       t1 ≤ t2 → t2 - t1 < 60 →
       check_rate_limit rl t 1 t1 =
         (RateCheck.admitted,
          { buckets := rl.buckets ++
              [(bucket_key t,
                { capacity := 1, refill_rate := 1 / 60, tokens := 0
                  last_refill := t1 })] }) ∧
       (check_rate_limit
          { buckets := rl.buckets ++
              [(bucket_key t,
                { capacity := 1, refill_rate := 1 / 60, tokens := 0
                  last_refill := t1 })] } t 1 t2).1
         = RateCheck.rateLimited) := by
  refine ⟨?_, ?_, ?_⟩
  · intro b now
    constructor
    · simp only [TokenBucket.consume, TokenBucket.refill]
      split
      · rename_i h
        simpa using h
      · rename_i h
        simpa using h
    · simp only [TokenBucket.consume, TokenBucket.refill]
      split
      · rename_i h
        rfl
      · rename_i h
        rfl
  · intro rl t r now b hb
    simp only [check_rate_limit, get_or_create_bucket, hb]
    simp only [TokenBucket.consume, TokenBucket.refill]
    split
    · rename_i h
      constructor
      · intro hc
        exact absurd hc (by simp)
      · intro hlt
        exact absurd h (not_le.mpr hlt)
    · rename_i h
      exact ⟨fun _ => not_le.mp h, fun _ => rfl⟩
  · intro rl t t1 t2 hnone h12 hlt
    have e1 : (TokenBucket.init 1 (1 / 60) t1).consume 1 t1 =
        (true, { capacity := 1, refill_rate := 1 / 60, tokens := 0
                 last_refill := t1 }) := by
      simp only [TokenBucket.init, TokenBucket.consume, TokenBucket.refill]
      simp
    constructor
    · simp only [check_rate_limit, get_or_create_bucket, hnone, e1]
      rw [List.map_append, map_replace_of_none hnone]
      simp
    · have hlook : lookupBucket (bucket_key t)
          (rl.buckets ++
            [(bucket_key t,
              { capacity := 1, refill_rate := 1 / 60, tokens := 0
                last_refill := t1 })]) =
          some { capacity := 1, refill_rate := 1 / 60, tokens := 0
                 last_refill := t1 } := by
        rw [lookupBucket_append hnone]
        simp [lookupBucket]
      have hbal : (0 : ℚ) + (t2 - t1) * (1 / 60) < 1 := by
        rw [zero_add]
        have h60 : (0 : ℚ) < 60 := by norm_num
        calc (t2 - t1) * (1 / 60) = (t2 - t1) / 60 := by ring
        _ < 1 := (div_lt_one h60).mpr hlt
      have hfail : ¬ (1 : ℚ) ≤
          min 1 (0 + (t2 - t1) * (1 / 60)) := by
        intro hc
        have := le_trans hc (min_le_right _ _)
        exact absurd this (not_le.mpr hbal)
      simp only [check_rate_limit, get_or_create_bucket, hlook]
      simp only [TokenBucket.consume, TokenBucket.refill]
      rw [if_neg hfail]
      rfl

/-- Witness for C8: with an empty limiter and rate 1/min, the first
admission at second 0 passes and drains the bucket; a second admission at
second 30 (< 60 seconds later) is RATE_LIMITED. -/
theorem c8_witness :
    check_rate_limit { buckets := [] } "a" 1 0 =
      (RateCheck.admitted,
       { buckets := [(bucket_key "a",
          { capacity := 1, refill_rate := 1 / 60, tokens := 0
            last_refill := 0 })] }) ∧
    (check_rate_limit
       { buckets := [(bucket_key "a",
          { capacity := 1, refill_rate := 1 / 60, tokens := 0
            last_refill := 0 })] } "a" 1 30).1
      = RateCheck.rateLimited := by
  have h := c8_rate_limit_spec.2.2 { buckets := [] } "a" 0 30 rfl
    (by norm_num) (by norm_num)
  exact ⟨h.1, h.2⟩

/-- C10: the limiter creates a tenant's bucket on the first
`check_rate_limit` call — with capacity and refill rate fixed by the
`rate_per_minute` passed on that call — and reuses the stored bucket on
every later call: a different `rate_per_minute` passed later leaves the
existing bucket's capacity and refill rate unchanged. -/
theorem c10_bucket_per_tenant :
    (∀ (rl : RateLimiter) (t : String) (r now : ℚ),
       lookupBucket (bucket_key t) rl.buckets = none →
       ∃ b', lookupBucket (bucket_key t)
           (check_rate_limit rl t r now).2.buckets = some b' ∧
         b'.capacity = r ∧ b'.refill_rate = r / 60)
  ∧ (∀ (rl : RateLimiter) (t : String) (r now : ℚ) (b : TokenBucket),
       lookupBucket (bucket_key t) rl.buckets = some b →
       get_or_create_bucket rl t r now = (b, rl))
  ∧ (∀ (rl : RateLimiter) (t : String) (r2 now : ℚ) (b : TokenBucket),
       lookupBucket (bucket_key t) rl.buckets = some b →
       ∃ b', lookupBucket (bucket_key t)
           (check_rate_limit rl t r2 now).2.buckets = some b' ∧
         b'.capacity = b.capacity ∧ b'.refill_rate = b.refill_rate) := by
  refine ⟨?_, ?_, ?_⟩
  · intro rl t r now hnone
    refine ⟨((TokenBucket.init r (r / 60) now).consume 1 now).2, ?_,
      (consume_fields _ _ _).1, (consume_fields _ _ _).2⟩
    simp only [check_rate_limit, get_or_create_bucket, hnone]
    rw [lookupBucket_replace, lookupBucket_append hnone]
    simp [lookupBucket]
  · intro rl t r now b hb
    simp only [get_or_create_bucket, hb]
  · intro rl t r2 now b hb
    refine ⟨(b.consume 1 now).2, ?_,
      (consume_fields _ _ _).1, (consume_fields _ _ _).2⟩
    simp only [check_rate_limit, get_or_create_bucket, hb]
    rw [lookupBucket_replace, hb]
    rfl

/-- The pre-existing bucket of the C10 witness (capacity 7, rate 7/60). -/
def c10Bucket : TokenBucket :=
  { capacity := 7, refill_rate := 7 / 60, tokens := 7, last_refill := 0 }

/-- A limiter already holding that bucket for tenant `a`. -/
def c10Rl : RateLimiter :=
  { buckets := [(bucket_key "a", c10Bucket)] }

/-- Witness for C10: a later call passing `rate_per_minute = 99` reuses the
stored bucket and leaves its capacity 7 and refill rate 7/60 unchanged. -/
theorem c10_witness :
    get_or_create_bucket c10Rl "a" 99 5 = (c10Bucket, c10Rl) ∧
    (lookupBucket (bucket_key "a")
        (check_rate_limit c10Rl "a" 99 5).2.buckets).map
      TokenBucket.capacity = some 7 ∧
    (lookupBucket (bucket_key "a")
        (check_rate_limit c10Rl "a" 99 5).2.buckets).map
      TokenBucket.refill_rate = some (7 / 60) := by
  have hlook : lookupBucket (bucket_key "a") c10Rl.buckets
      = some c10Bucket := rfl
  obtain ⟨b', hb', hcap, href⟩ :=
    c10_bucket_per_tenant.2.2 c10Rl "a" 99 5 c10Bucket hlook
  refine ⟨c10_bucket_per_tenant.2.1 c10Rl "a" 99 5 c10Bucket hlook, ?_, ?_⟩
  · rw [hb', Option.map_some', hcap]
    rfl
  · rw [hb', Option.map_some', href]
    rfl

/-- `publishList` distributes over concatenation of subscriber lists. -/
theorem publishList_append (l1 l2 : List Handler) (p : String) :
    publishList (l1 ++ l2) p = publishList l1 p ++ publishList l2 p := by
  induction l1 with
  | nil => rfl
  | cons h t ih =>
    simp only [List.cons_append, publishList]
    exact congrArg (List.cons (invokeHandler h p)) ih

/-- `publishList` is the pointwise invocation of the handlers. -/
theorem publishList_eq_map (hs : List Handler) (p : String) :
    publishList hs p = hs.map (fun h => invokeHandler h p) := by
  induction hs with
  | nil => rfl
  | cons h t ih =>
    simp only [publishList, List.map_cons, ih]

/-- C9: `publish` invokes every current subscriber of the topic, in order
(the awaited deferred handlers and the synchronous ones are both plain
invocations here); a handler that raises contributes a recorded, swallowed
error — it neither prevents the delivery to every remaining handler of the
topic nor propagates to the publishing caller, which always receives one
outcome per subscriber. -/
theorem c9_publish_spec :
    (∀ (bus : EventBus) (topic payload : String),
       publish bus topic payload
         = (subscribersOf bus topic).map (fun h => invokeHandler h payload))
  ∧ (∀ (hs1 hs2 : List Handler) (bad : Handler) (payload e : String),
       bad.run payload = .error e →
       publishList (hs1 ++ bad :: hs2) payload
         = publishList hs1 payload ++
           Delivery.handlerError bad.hid e :: publishList hs2 payload)
  ∧ (∀ (bus : EventBus) (topic payload : String),
       (publish bus topic payload).length
         = (subscribersOf bus topic).length) := by
  refine ⟨?_, ?_, ?_⟩
  · intro bus topic payload
    exact publishList_eq_map _ _
  · intro hs1 hs2 bad payload e hbad
    rw [publishList_append]
    show _ ++ publishList (bad :: hs2) payload = _
    have hinv : invokeHandler bad payload = .handlerError bad.hid e := by
      unfold invokeHandler
      rw [hbad]
    show _ ++ (invokeHandler bad payload :: publishList hs2 payload) = _
    rw [hinv]
  · intro bus topic payload
    rw [publish, publishList_eq_map, List.length_map]

/-- A subscriber that succeeds. -/
def c9Good1 : Handler :=
  { hid := 1, run := fun _ => .ok () }

/-- A subscriber that raises. -/
def c9Bad : Handler :=
  { hid := 2, run := fun _ => .error "boom" }

/-- Another subscriber that succeeds, registered after the raising one. -/
def c9Good2 : Handler :=
  { hid := 3, run := fun _ => .ok () }

/-- Witness for C9: with a raising handler between two healthy ones, all
three are invoked — the error is recorded and both healthy handlers still
receive the event. -/
theorem c9_witness :
    publishList ([c9Good1] ++ c9Bad :: [c9Good2]) "evt"
      = publishList [c9Good1] "evt" ++
        Delivery.handlerError c9Bad.hid "boom" :: publishList [c9Good2] "evt" ∧
    publishList [c9Good1, c9Bad, c9Good2] "evt"
      = [.delivered 1, .handlerError 2 "boom", .delivered 3] :=
  ⟨c9_publish_spec.2.1 [c9Good1] [c9Good2] c9Bad "evt" "boom" rfl, rfl⟩
